import Mathlib

/-!
Verification of the `openapi-deref` library (`src/lib.rs`): a shallow
embedding of the OpenAPI 3.1 `$ref` dereferencing pass, together with
theorems about pointer translation (`ref_to_json_path`), the cached raw
resolver (`dereference_type`), slot normalization (`dereference_reference`),
the schema composer (`dereference_schemars_schema`), the structural walker
(`dereference_components` / `dereference_paths` / `dereference`), and the
post-pass server aggregation (`get_servers`).

Modelling conventions:
- `serde_json::Value` is modelled by `Json`.
- Rust `Result<T, OpenApiError>` is modelled by `RResult`, which has two
  extra outcomes: `panic` (a Rust panic, e.g. `Option::unwrap` on `None`)
  and `div` (the fuel of a possibly non-terminating recursion ran out).
- The `RefCell<HashMap<String, Value>>` cache is threaded explicitly as an
  association list `Cache`; `dereference_type` additionally reports how many
  raw-document query evaluations it performed (0 or 1), as ghost
  instrumentation for the cache property.
- serde decoding of a raw value into a typed struct is an external
  collaborator and is modelled by decoder functions `Json → Option T`
  supplied through the `Decoders` record.
- The JSONPath engine (`jsonpath_rust`) is an external collaborator: it is
  modelled by `jsonPathParse` (parse of a `$.a.b` style query) and
  `find_first` (first match of the query against the raw document,
  `find_slice(..).get(0)`).
-/

namespace OpenApiDeref

/-- Untyped JSON tree, modelling `serde_json::Value`. -/
inductive Json where
  | null
  | bool (b : Bool)
  | num (n : Int)
  | str (s : String)
  | arr (elems : List Json)
  | obj (fields : List (String × Json))

/-- The error enum `OpenApiError` from `src/lib.rs`. -/
inductive OpenApiError where
  | ParsingError (msg : String)
  | UnsupportedRefFormat (reference : String)
  | UnsupportedOpenApiVersion
  | DerefBeforeGettingServers
deriving DecidableEq

/-- Outcome of running a piece of the Rust code: a `Result` value, a panic
(`unwrap` on `None`), or fuel exhaustion of a modelled unbounded recursion. -/
inductive RResult (α : Type) where
  | ok (a : α)
  | err (e : OpenApiError)
  | panic
  | div

/-- The resolution cache `serde_values : RefCell<HashMap<String, Value>>`,
modelled as an association list with unique keys (inserts happen only on
lookup miss). -/
abbrev Cache := List (String × Json)

/-- `HashMap::get` on the cache. -/
def Cache.find : Cache → String → Option Json
  | [], _ => none
  | (k, v) :: rest, key => if k = key then some v else Cache.find rest key

/-- Split a character list on a separator character. -/
def splitOnChar (c : Char) : List Char → List (List Char)
  | [] => [[]]
  | x :: xs =>
    if x = c then [] :: splitOnChar c xs
    else
      match splitOnChar c xs with
      | [] => [[x]]
      | h :: t => (x :: h) :: t

/-- Component iteration of `std::path::Path` on Unix, as used by
`PathBuf::from(&path_str).iter()` in `ref_to_json_path`: a leading `/`
contributes a root component (whose `to_str` is `"/"`), empty segments and
`.` segments are normalized away, except that a leading `.` of a relative
path is kept. -/
def pathComponents (s : List Char) : List (List Char) :=
  let body := (splitOnChar '/' s).filter (fun p => !(p == []) && !(p == ['.']))
  let body :=
    match s with
    | ['.'] => ['.'] :: body
    | '.' :: '/' :: _ => ['.'] :: body
    | _ => body
  match s with
  | '/' :: _ => ['/'] :: body
  | _ => body

/-- `ref_to_json_path` from `src/lib.rs`: reject inputs not starting with
`#`; skip one further character unconditionally; interpret the remainder as
a path and emit a `$.seg.seg` JSONPath query string. -/
def ref_to_json_path (ref_str : String) : Except OpenApiError String :=
  match ref_str.data with
  | [] => .error (.UnsupportedRefFormat ref_str)
  | first :: rest =>
    if first = '#' then
      .ok ((pathComponents (rest.drop 1)).foldl
        (fun acc p => acc ++ "." ++ String.mk p) "$")
    else .error (.UnsupportedRefFormat ref_str)

/-- Parse of a translated query string by `JsonPathInst::from_str`
(external collaborator, modelled for root-anchored dotted queries):
`$` denotes the root, `$.a.b` a chain of member steps; queries with an
empty step fail to parse. -/
def jsonPathParse (q : String) : Option (List String) :=
  match q.data with
  | ['$'] => some []
  | '$' :: '.' :: rest =>
    let segs := splitOnChar '.' rest
    if segs.any (fun p => p == []) then none
    else some (segs.map String.mk)
  | _ => none

/-- Object member access in the raw document. -/
def Json.getField : Json → String → Option Json
  | .obj fields, key => go fields key
  | _, _ => none
where
  go : List (String × Json) → String → Option Json
    | [], _ => none
    | (k, v) :: rest, key => if k = key then some v else go rest key

/-- `query.find_slice(&self.json)` followed by `.get(0)` (external
collaborator): the first node reached by following the member steps from
the root, or `none` when the query matches nothing. -/
def find_first : Json → List String → Option Json
  | j, [] => some j
  | j, s :: rest =>
    match j.getField s with
    | some v => find_first v rest
    | none => none

/-- `dereference_type::<T>` from `src/lib.rs`, with the serde decode of the
raw value into `T` abstracted as `decode`. On cache hit the cached raw value
is decoded; on miss the pointer is translated, parsed into a query and
evaluated against the raw document; `path_result.get(0).take().unwrap()`
panics when the query matches nothing; otherwise the raw match is inserted
into the cache keyed by the original pointer string and then decoded. The
third output counts raw-document query evaluations (ghost instrumentation). -/
def dereference_type (decode : Json → Option α) (doc : Json) (cache : Cache)
    (reference : String) : RResult α × Cache × Nat :=
  match Cache.find cache reference with
  | some v =>
    match decode v with
    | some t => (.ok t, cache, 0)
    | none => (.err (.ParsingError ("Error with serde parsing " ++ reference)), cache, 0)
  | none =>
    match ref_to_json_path reference with
    | .error e => (.err e, cache, 0)
    | .ok jp =>
      match jsonPathParse jp with
      | none => (.err (.ParsingError ("Error creating json path " ++ jp)), cache, 0)
      | some segs =>
        match find_first doc segs with
        | none => (.panic, cache, 1)
        | some v =>
          match decode v with
          | some t => (.ok t, (reference, v) :: cache, 1)
          | none =>
            (.err (.ParsingError ("Error with serde parsing " ++ reference)),
              (reference, v) :: cache, 1)

/-- `ReferenceOr<T>` from the `openapiv3` fork used by the crate: a bare
reference (Unresolved), an inline item, or an already-resolved reference. -/
inductive ReferenceOr (α : Type) where
  | Reference (reference : String) (summary : Option String) (description : Option String)
  | Item (item : α)
  | DereferencedReference (reference : String) (summary : Option String)
      (description : Option String) (item : α)

/-- Whether a slot is still an unresolved `Reference`. -/
def ReferenceOr.isRef : ReferenceOr α → Bool
  | .Reference _ _ _ => true
  | _ => false

/-- Whether a slot is an inline `Item`. -/
def ReferenceOr.isItem : ReferenceOr α → Bool
  | .Item _ => true
  | _ => false

/-- State-threading computation over the cache, the shape of the crate's
`&self` methods that mutate `serde_values` through the `RefCell`. -/
def DerefM (α : Type) : Type := Cache → RResult α × Cache

/-- Return for `DerefM`. -/
def dpure (a : α) : DerefM α := fun c => (.ok a, c)

/-- Sequencing for `DerefM`: `?`-style short-circuit on `err`, and
propagation of `panic`/`div`. -/
def dbind (x : DerefM α) (f : α → DerefM β) : DerefM β := fun c =>
  match x c with
  | (.ok a, c') => f a c'
  | (.err e, c') => (.err e, c')
  | (.panic, c') => (.panic, c')
  | (.div, c') => (.div, c')

/-- `dereference_reference::<T>` from `src/lib.rs`: `Item` passes through;
a `Reference` is resolved via `dereference_type` and repackaged as a
`DereferencedReference` carrying the same reference string, summary and
description; a `DereferencedReference` passes through unchanged. -/
def dereference_reference (decode : Json → Option α) (doc : Json)
    (v : ReferenceOr α) : DerefM (ReferenceOr α) := fun cache =>
  match v with
  | .Item i => (.ok (.Item i), cache)
  | .Reference r s d =>
    match dereference_type decode doc cache r with
    | (.ok item, c, _) => (.ok (.DereferencedReference r s d item), c)
    | (.err e, c, _) => (.err e, c)
    | (.panic, c, _) => (.panic, c)
    | (.div, c, _) => (.div, c)
  | .DereferencedReference r s d i => (.ok (.DereferencedReference r s d i), cache)

/-- `handle_dereferenced` from `src/lib.rs`: apply `func` to the item inside
an `Item` or `DereferencedReference` slot; anything else passes through. -/
def handle_dereferenced (v : ReferenceOr α) (func : α → DerefM α) :
    DerefM (ReferenceOr α) :=
  match v with
  | .DereferencedReference r s d item => fun c =>
    match func item c with
    | (.ok item', c') => (.ok (.DereferencedReference r s d item'), c')
    | (.err e, c') => (.err e, c')
    | (.panic, c') => (.panic, c')
    | (.div, c') => (.div, c')
  | .Item item => fun c =>
    match func item c with
    | (.ok item', c') => (.ok (.Item item'), c')
    | (.err e, c') => (.err e, c')
    | (.panic, c') => (.panic, c')
    | (.div, c') => (.div, c')
  | v => dpure v

mutual
/-- `schemars::schema::Schema`: a boolean schema or an object schema. The
object case keeps exactly the fields `dereference_schemars_schema` touches
(`reference`, `subschemas`); all other constraint fields are carried opaquely
in `other`. -/
inductive SchemarsSchema where
  | bool (b : Bool)
  | object (reference : Option String) (subschemas : Option Subschemas) (other : Json)

/-- `schemars::schema::SubschemaValidation`: the composition keywords. -/
inductive Subschemas where
  | mk (all_of : Option SchemaList) (any_of : Option SchemaList)
      (one_of : Option SchemaList) (if_schema : Option SchemarsSchema)
      (then_schema : Option SchemarsSchema) (else_schema : Option SchemarsSchema)

/-- `Vec<Schema>` inside a composition keyword. -/
inductive SchemaList where
  | nil
  | cons (head : SchemarsSchema) (tail : SchemaList)
end

/-- Length of a composition member list. -/
def SchemaList.length : SchemaList → Nat
  | .nil => 0
  | .cons _ t => t.length + 1

/-- `openapiv3::v3_1::Server`; the dereferencer only clones servers, so the
fields are opaque. -/
structure Server where
  url : String

/-- Leaf type: the walker never recurses into a security scheme. -/
structure SecurityScheme where
  raw : Json

/-- Leaf type: an example carries no reference slots. -/
structure Example where
  raw : Json

/-- Leaf type in this walker: request bodies are only resolved at top level. -/
structure RequestBody where
  raw : Json

/-- Leaf type: the walker never recurses into a link. -/
structure Link where
  raw : Json

/-- Leaf type in this walker: callbacks are only resolved at top level. -/
structure Callback where
  raw : Json

/-- `openapiv3::v3_1::Header`: `dereference_header` rewrites `examples`. -/
structure Header where
  examples : List (String × ReferenceOr Example)
  raw : Json

/-- `openapiv3::v3_1::ParameterData`: `dereference_parameter_data` rewrites
`examples`. -/
structure ParameterData where
  examples : List (String × ReferenceOr Example)
  raw : Json

/-- `openapiv3::v3_1::Parameter`: four styles, each carrying parameter data
plus style fields (opaque `extra`) that the code passes through. -/
inductive Parameter where
  | Query (parameter_data : ParameterData) (extra : Json)
  | Header (parameter_data : ParameterData) (extra : Json)
  | Path (parameter_data : ParameterData) (extra : Json)
  | Cookie (parameter_data : ParameterData) (extra : Json)

/-- `openapiv3::v3_1::Response`: `dereference_response` rewrites `headers`
and `links`. -/
structure Response where
  headers : List (String × ReferenceOr Header)
  links : List (String × ReferenceOr Link)
  raw : Json

/-- `openapiv3::v3_1::Responses`: status-code map of response slots; other
fields (such as the default response, untouched by the code) are opaque. -/
structure Responses where
  responses : List (String × ReferenceOr Response)
  raw : Json

/-- `openapiv3::v3_1::Operation`, restricted to the fields
`dereference_operation` touches. -/
structure Operation where
  parameters : List (ReferenceOr Parameter)
  request_body : Option (ReferenceOr RequestBody)
  responses : Option Responses
  servers : List Server
  raw : Json

/-- `openapiv3::v3_1::PathItem`. -/
structure PathItem where
  get : Option Operation
  put : Option Operation
  post : Option Operation
  delete : Option Operation
  options : Option Operation
  head : Option Operation
  patch : Option Operation
  trace : Option Operation
  parameters : List (ReferenceOr Parameter)
  servers : List Server
  raw : Json

/-- `openapiv3::v3_1::SchemaObject`: a schemars schema plus opaque extras. -/
structure SchemaObject where
  json_schema : SchemarsSchema
  raw : Json

/-- `openapiv3::v3_1::Components`. -/
structure Components where
  security_schemes : List (String × ReferenceOr SecurityScheme)
  responses : List (String × ReferenceOr Response)
  schemas : List (String × SchemaObject)
  parameters : List (String × ReferenceOr Parameter)
  examples : List (String × ReferenceOr Example)
  request_bodies : List (String × ReferenceOr RequestBody)
  headers : List (String × ReferenceOr Header)
  links : List (String × ReferenceOr Link)
  callbacks : List (String × ReferenceOr Callback)
  path_items : List (String × ReferenceOr PathItem)
  raw : Json

/-- `openapiv3::v3_1::Paths`. -/
structure Paths where
  paths : List (String × ReferenceOr PathItem)
  raw : Json

/-- `openapiv3::v3_1::OpenApi`, restricted to the fields the dereferencer
touches. -/
structure OpenApiV31 where
  servers : List Server
  paths : Option Paths
  components : Option Components
  raw : Json

/-- The `OpenApiDereferencer` struct: raw document, typed document, the
resolution cache and the state flag. -/
structure OpenApiDereferencer where
  json : Json
  openapi : OpenApiV31
  serde_values : Cache
  is_dereferenced : Bool

/-- serde decoding of a raw JSON subtree into each typed shape the code
resolves references into (external collaborator contract). The schema
decoder yields the payload of a `schemars` object schema. -/
structure Decoders where
  decSecurityScheme : Json → Option SecurityScheme
  decResponse : Json → Option Response
  decParameter : Json → Option Parameter
  decExample : Json → Option Example
  decRequestBody : Json → Option RequestBody
  decHeader : Json → Option Header
  decLink : Json → Option Link
  decCallback : Json → Option Callback
  decPathItem : Json → Option PathItem
  decSchemaObj : Json → Option (Option String × Option Subschemas × Json)

/-- The `s.is_ref()` substitution step of `dereference_schemars_schema`: a
reference schema is replaced wholesale by the decoded target of its pointer
(`self.dereference_type(&s.reference.unwrap())?`); a non-reference schema
passes through. -/
def schemaSubst (D : Decoders) (doc : Json) (reference : Option String)
    (subschemas : Option Subschemas) (other : Json) :
    DerefM (Option String × Option Subschemas × Json) := fun c =>
  match reference with
  | some r =>
    match dereference_type D.decSchemaObj doc c r with
    | (.ok t, c', _) => (.ok t, c')
    | (.err e, c', _) => (.err e, c')
    | (.panic, c', _) => (.panic, c')
    | (.div, c', _) => (.div, c')
  | none => (.ok (reference, subschemas, other), c)

mutual
/-- `dereference_schemars_schema` from `src/lib.rs`. Boolean schemas pass
through. For an object schema, if it is a reference (`s.is_ref()`), the
whole schema is replaced by the decoded target of the pointer; then each
composition branch of the (possibly substituted) schema is dereferenced
recursively, in the code's order: `all_of`, `any_of`, `one_of`, `if`,
`else`, `then`. The recursion is unbounded in Rust (no cycle detection), so
the model consumes one unit of `fuel` per recursive call and yields `div`
when fuel runs out. -/
def dereference_schemars_schema (D : Decoders) (doc : Json) :
    Nat → SchemarsSchema → DerefM SchemarsSchema
  | 0, _ => fun c => (.div, c)
  | _ + 1, .bool b => dpure (.bool b)
  | fuel + 1, .object reference subschemas other =>
    dbind (schemaSubst D doc reference subschemas other)
      (fun triple =>
        match triple.2.1 with
        | none => dpure (.object triple.1 none triple.2.2)
        | some (.mk all_of any_of one_of if_s then_s else_s) =>
          dbind (derefOptSchemaList D doc fuel all_of) (fun all2 =>
          dbind (derefOptSchemaList D doc fuel any_of) (fun any2 =>
          dbind (derefOptSchemaList D doc fuel one_of) (fun one2 =>
          dbind (derefOptSchema D doc fuel if_s) (fun if2 =>
          dbind (derefOptSchema D doc fuel else_s) (fun else2 =>
          dbind (derefOptSchema D doc fuel then_s) (fun then2 =>
          dpure (.object triple.1
            (some (.mk all2 any2 one2 if2 then2 else2)) triple.2.2))))))))

/-- `.map(..).transpose()?` over an optional composition member list. -/
def derefOptSchemaList (D : Decoders) (doc : Json) :
    Nat → Option SchemaList → DerefM (Option SchemaList)
  | _, none => dpure none
  | 0, some _ => fun c => (.div, c)
  | fuel + 1, some l =>
    dbind (dereference_schema_list D doc fuel l) (fun l2 => dpure (some l2))

/-- `.map(..).transpose()?` over an optional single composition branch. -/
def derefOptSchema (D : Decoders) (doc : Json) :
    Nat → Option SchemarsSchema → DerefM (Option SchemarsSchema)
  | _, none => dpure none
  | 0, some _ => fun c => (.div, c)
  | fuel + 1, some s =>
    dbind (dereference_schemars_schema D doc fuel s) (fun s2 => dpure (some s2))

/-- Element-wise dereferencing of a composition member list
(`iter().map(..).collect::<Result<..>>()`). -/
def dereference_schema_list (D : Decoders) (doc : Json) :
    Nat → SchemaList → DerefM SchemaList
  | _, .nil => dpure .nil
  | 0, .cons _ _ => fun c => (.div, c)
  | fuel + 1, .cons h t =>
    dbind (dereference_schemars_schema D doc fuel h) (fun h2 =>
      dbind (dereference_schema_list D doc fuel t) (fun t2 => dpure (.cons h2 t2)))
end

/-- Left-to-right, short-circuiting traversal of a list, the shape of
`into_iter().map(..).collect::<Result<_, OpenApiError>>()`. -/
def derefList (step : α → DerefM β) : List α → DerefM (List β)
  | [] => dpure []
  | x :: xs =>
    dbind (step x) (fun y => dbind (derefList step xs) (fun ys => dpure (y :: ys)))

/-- Traversal of an `IndexMap` (association list), rewriting each value and
keeping keys and order. -/
def derefPairs (step : β → DerefM β) :
    List (String × β) → DerefM (List (String × β)) :=
  derefList (fun kv => dbind (step kv.2) (fun v2 => dpure (kv.1, v2)))

/-- Traversal of an `Option` via `.map(..).transpose()?`. -/
def derefOpt (step : α → DerefM α) : Option α → DerefM (Option α)
  | none => dpure none
  | some x => dbind (step x) (fun y => dpure (some y))

/-- `dereference_schemas` from `src/lib.rs`. -/
def dereference_schemas (D : Decoders) (doc : Json) (fuel : Nat)
    (schema : SchemaObject) : DerefM SchemaObject :=
  dbind (dereference_schemars_schema D doc fuel schema.json_schema)
    (fun js => dpure { schema with json_schema := js })

/-- `dereference_header` from `src/lib.rs`: resolve the header's example
slots (top level only). -/
def dereference_header (D : Decoders) (doc : Json) (header : Header) :
    DerefM Header :=
  dbind (derefPairs (dereference_reference D.decExample doc) header.examples)
    (fun ex => dpure { header with examples := ex })

/-- `dereference_parameter_data` from `src/lib.rs`. -/
def dereference_parameter_data (D : Decoders) (doc : Json)
    (parameter_data : ParameterData) : DerefM ParameterData :=
  dbind (derefPairs (dereference_reference D.decExample doc) parameter_data.examples)
    (fun ex => dpure { parameter_data with examples := ex })

/-- `dereference_parameter` from `src/lib.rs`: rebuild the same parameter
style around the dereferenced parameter data. -/
def dereference_parameter (D : Decoders) (doc : Json) :
    Parameter → DerefM Parameter
  | .Query pd extra =>
    dbind (dereference_parameter_data D doc pd) (fun pd2 => dpure (.Query pd2 extra))
  | .Header pd extra =>
    dbind (dereference_parameter_data D doc pd) (fun pd2 => dpure (.Header pd2 extra))
  | .Path pd extra =>
    dbind (dereference_parameter_data D doc pd) (fun pd2 => dpure (.Path pd2 extra))
  | .Cookie pd extra =>
    dbind (dereference_parameter_data D doc pd) (fun pd2 => dpure (.Cookie pd2 extra))

/-- `dereference_response` from `src/lib.rs`: resolve header and link slots
of the response, top level only (no recursion into a header's examples). -/
def dereference_response (D : Decoders) (doc : Json) (response : Response) :
    DerefM Response :=
  dbind (derefPairs (dereference_reference D.decHeader doc) response.headers) (fun hs =>
    dbind (derefPairs (dereference_reference D.decLink doc) response.links) (fun ls =>
      dpure { response with headers := hs, links := ls }))

/-- One parameter slot of an operation or path item: resolve the reference,
then recurse into the parameter via `handle_dereferenced`. -/
def derefParamSlot (D : Decoders) (doc : Json) (v : ReferenceOr Parameter) :
    DerefM (ReferenceOr Parameter) :=
  dbind (dereference_reference D.decParameter doc v)
    (fun v1 => handle_dereferenced v1 (dereference_parameter D doc))

/-- One response slot: resolve the reference, then recurse into the response
via `handle_dereferenced`. -/
def derefResponseSlot (D : Decoders) (doc : Json) (v : ReferenceOr Response) :
    DerefM (ReferenceOr Response) :=
  dbind (dereference_reference D.decResponse doc v)
    (fun v1 => handle_dereferenced v1 (dereference_response D doc))

/-- `dereference_operation` from `src/lib.rs`. The source dereferences
`parameters` twice (the same statement appears before and after the
`request_body` handling); the model mirrors that. -/
def dereference_operation (D : Decoders) (doc : Json) (operation : Operation) :
    DerefM Operation :=
  dbind (derefList (derefParamSlot D doc) operation.parameters) (fun ps1 =>
    dbind (derefOpt (dereference_reference D.decRequestBody doc) operation.request_body)
      (fun rb2 =>
      dbind (derefList (derefParamSlot D doc) ps1) (fun ps2 =>
        dbind (match operation.responses with
          | none => dpure none
          | some rs =>
            dbind (derefPairs (derefResponseSlot D doc) rs.responses)
              (fun rmap => dpure (some { rs with responses := rmap })))
          (fun rs2 =>
          dpure { operation with
                  parameters := ps2, request_body := rb2, responses := rs2 }))))

/-- `dereference_path_item` from `src/lib.rs`: each HTTP method's operation,
then the path item's own parameter slots. -/
def dereference_path_item (D : Decoders) (doc : Json) (path_item : PathItem) :
    DerefM PathItem :=
  dbind (derefOpt (dereference_operation D doc) path_item.get) (fun g =>
  dbind (derefOpt (dereference_operation D doc) path_item.put) (fun pu =>
  dbind (derefOpt (dereference_operation D doc) path_item.post) (fun po =>
  dbind (derefOpt (dereference_operation D doc) path_item.delete) (fun de =>
  dbind (derefOpt (dereference_operation D doc) path_item.options) (fun op =>
  dbind (derefOpt (dereference_operation D doc) path_item.head) (fun he =>
  dbind (derefOpt (dereference_operation D doc) path_item.patch) (fun pa =>
  dbind (derefOpt (dereference_operation D doc) path_item.trace) (fun tr =>
  dbind (derefList (derefParamSlot D doc) path_item.parameters) (fun ps =>
  dpure { path_item with
          get := g, put := pu, post := po, delete := de, options := op,
          head := he, patch := pa, trace := tr, parameters := ps })))))))))

/-- One path-item slot of `paths`: resolve the reference, then recurse into
the path item via `handle_dereferenced`. -/
def derefPathItemSlot (D : Decoders) (doc : Json) (v : ReferenceOr PathItem) :
    DerefM (ReferenceOr PathItem) :=
  dbind (dereference_reference D.decPathItem doc v)
    (fun v1 => handle_dereferenced v1 (dereference_path_item D doc))

/-- `dereference_paths` from `src/lib.rs`. -/
def dereference_paths (D : Decoders) (doc : Json) (paths : Option Paths) :
    DerefM (Option Paths) :=
  match paths with
  | none => dpure none
  | some ps =>
    dbind (derefPairs (derefPathItemSlot D doc) ps.paths)
      (fun pmap => dpure (some { ps with paths := pmap }))

/-- One header slot of `components.headers`: resolve the reference, then
recurse into the header via `handle_dereferenced`. -/
def derefHeaderSlot (D : Decoders) (doc : Json) (v : ReferenceOr Header) :
    DerefM (ReferenceOr Header) :=
  dbind (dereference_reference D.decHeader doc v)
    (fun v1 => handle_dereferenced v1 (dereference_header D doc))

/-- `dereference_components` from `src/lib.rs`: the ten collections in
source order. Security schemes, examples, request bodies, links, callbacks
and path items are resolved at top level only; responses, parameters and
headers additionally recurse one level; schemas go through the schema
composer. -/
def dereference_components (D : Decoders) (doc : Json) (fuel : Nat)
    (components : Option Components) : DerefM (Option Components) :=
  match components with
  | none => dpure none
  | some comps =>
    dbind (derefPairs (dereference_reference D.decSecurityScheme doc)
        comps.security_schemes) (fun ss =>
    dbind (derefPairs (derefResponseSlot D doc) comps.responses) (fun rsp =>
    dbind (derefPairs (dereference_schemas D doc fuel) comps.schemas) (fun sch =>
    dbind (derefPairs (derefParamSlot D doc) comps.parameters) (fun par =>
    dbind (derefPairs (dereference_reference D.decExample doc) comps.examples) (fun exs =>
    dbind (derefPairs (dereference_reference D.decRequestBody doc)
        comps.request_bodies) (fun rbs =>
    dbind (derefPairs (derefHeaderSlot D doc) comps.headers) (fun hds =>
    dbind (derefPairs (dereference_reference D.decLink doc) comps.links) (fun lks =>
    dbind (derefPairs (dereference_reference D.decCallback doc) comps.callbacks) (fun cbs =>
    dbind (derefPairs (dereference_reference D.decPathItem doc) comps.path_items) (fun pis =>
    dpure (some { comps with
            security_schemes := ss, responses := rsp, schemas := sch,
            parameters := par, examples := exs, request_bodies := rbs,
            headers := hds, links := lks, callbacks := cbs,
            path_items := pis })))))))))))

/-- `dereference` from `src/lib.rs`: components first, then paths; on
success the flag `is_dereferenced` is set and the final cache stored. -/
def dereference (D : Decoders) (fuel : Nat) (self : OpenApiDereferencer) :
    RResult OpenApiDereferencer :=
  match dereference_components D self.json fuel self.openapi.components
      self.serde_values with
  | (.ok comps2, c1) =>
    match dereference_paths D self.json self.openapi.paths c1 with
    | (.ok paths2, c2) =>
      .ok { self with
            openapi := { self.openapi with components := comps2, paths := paths2 },
            serde_values := c2, is_dereferenced := true }
    | (.err e, _) => .err e
    | (.panic, _) => .panic
    | (.div, _) => .div
  | (.err e, _) => .err e
  | (.panic, _) => .panic
  | (.div, _) => .div

/-- The servers contributed by one path item in `get_servers`: the item's
own servers followed by its GET operation's servers when present. -/
def pathItemServers (item : PathItem) : List Server :=
  item.servers ++ (match item.get with
    | some o => o.servers
    | none => [])

/-- The loop of `get_servers` over `paths.paths`: accumulate servers in
document order; a still-unresolved `Reference` slot aborts with
`DerefBeforeGettingServers` (the catch-all arm in the source). -/
def get_servers_go (acc : List Server) :
    List (String × ReferenceOr PathItem) → Except OpenApiError (List Server)
  | [] => .ok acc
  | (_, slot) :: rest =>
    match slot with
    | .Item item => get_servers_go (acc ++ pathItemServers item) rest
    | .DereferencedReference _ _ _ item =>
      get_servers_go (acc ++ pathItemServers item) rest
    | .Reference _ _ _ => .error .DerefBeforeGettingServers

/-- `get_servers` from `src/lib.rs`. -/
def get_servers (self : OpenApiDereferencer) : Except OpenApiError (List Server) :=
  if self.is_dereferenced = false then .error .DerefBeforeGettingServers
  else
    match self.openapi.paths with
    | none => .ok self.openapi.servers
    | some ps => get_servers_go self.openapi.servers ps.paths

/-- Written from the spec sentence for `get_servers` (refinement target):
the servers one path slot contributes — that path item's servers, then its
GET operation's servers when present. -/
def pathSlotContrib (kv : String × ReferenceOr PathItem) : List Server :=
  match kv.2 with
  | .Item item =>
    item.servers ++ (match item.get with | some g => g.servers | none => [])
  | .DereferencedReference _ _ _ item =>
    item.servers ++ (match item.get with | some g => g.servers | none => [])
  | .Reference _ _ _ => []

/-- Written from the spec sentence for `get_servers` (refinement target):
the top-level servers, then, for each path item in document order, that
path item's servers and then its GET operation's servers when present. -/
def spec_servers (o : OpenApiV31) : List Server :=
  o.servers ++ (match o.paths with
    | none => []
    | some ps => (ps.paths.map pathSlotContrib).flatten)

/-! ### Reachability predicates over `ReferenceOr` slots -/

/-- Does a slot contain an unresolved `Reference`, either at top level or
(via `inner`) inside its item? -/
def slotHasRef (inner : α → Bool) : ReferenceOr α → Bool
  | .Reference _ _ _ => true
  | .Item x => inner x
  | .DereferencedReference _ _ _ x => inner x

/-- Inner check for leaf types that contain no reference slots. -/
def noInnerRef : α → Bool := fun _ => false

/-- An unresolved reference among a header's example slots. -/
def headerHasRef (h : Header) : Bool :=
  h.examples.any (fun kv => slotHasRef noInnerRef kv.2)

/-- An unresolved reference among parameter-data example slots. -/
def parameterDataHasRef (pd : ParameterData) : Bool :=
  pd.examples.any (fun kv => slotHasRef noInnerRef kv.2)

/-- An unresolved reference inside a parameter. -/
def parameterHasRef : Parameter → Bool
  | .Query pd _ => parameterDataHasRef pd
  | .Header pd _ => parameterDataHasRef pd
  | .Path pd _ => parameterDataHasRef pd
  | .Cookie pd _ => parameterDataHasRef pd

/-- An unresolved reference inside a response (header or link slots, or
inside an inline or resolved header). -/
def responseHasRef (r : Response) : Bool :=
  r.headers.any (fun kv => slotHasRef headerHasRef kv.2) ||
  r.links.any (fun kv => slotHasRef noInnerRef kv.2)

/-- An unresolved reference inside an operation. -/
def operationHasRef (o : Operation) : Bool :=
  o.parameters.any (slotHasRef parameterHasRef) ||
  (match o.request_body with
   | some rb => slotHasRef noInnerRef rb
   | none => false) ||
  (match o.responses with
   | some rs => rs.responses.any (fun kv => slotHasRef responseHasRef kv.2)
   | none => false)

/-- An unresolved reference inside an optional operation. -/
def optOperationHasRef : Option Operation → Bool
  | none => false
  | some o => operationHasRef o

/-- An unresolved reference inside a path item. -/
def pathItemHasRef (item : PathItem) : Bool :=
  optOperationHasRef item.get || optOperationHasRef item.put ||
  optOperationHasRef item.post || optOperationHasRef item.delete ||
  optOperationHasRef item.options || optOperationHasRef item.head ||
  optOperationHasRef item.patch || optOperationHasRef item.trace ||
  item.parameters.any (slotHasRef parameterHasRef)

/-- An unresolved `ReferenceOr::Reference` slot reachable anywhere inside
`components`, at any nesting depth where the document model places one. -/
def componentsHasRef (comps : Components) : Bool :=
  comps.security_schemes.any (fun kv => slotHasRef noInnerRef kv.2) ||
  comps.responses.any (fun kv => slotHasRef responseHasRef kv.2) ||
  comps.parameters.any (fun kv => slotHasRef parameterHasRef kv.2) ||
  comps.examples.any (fun kv => slotHasRef noInnerRef kv.2) ||
  comps.request_bodies.any (fun kv => slotHasRef noInnerRef kv.2) ||
  comps.headers.any (fun kv => slotHasRef headerHasRef kv.2) ||
  comps.links.any (fun kv => slotHasRef noInnerRef kv.2) ||
  comps.callbacks.any (fun kv => slotHasRef noInnerRef kv.2) ||
  comps.path_items.any (fun kv => slotHasRef pathItemHasRef kv.2)

/-- An unresolved `ReferenceOr::Reference` slot reachable from the document
root (components or paths, at every modelled nesting depth). -/
def openApiHasRef (o : OpenApiV31) : Bool :=
  (match o.components with
   | none => false
   | some comps => componentsHasRef comps) ||
  (match o.paths with
   | none => false
   | some ps => ps.paths.any (fun kv => slotHasRef pathItemHasRef kv.2))

/-- No top-level slot of an association-list collection is an unresolved
`Reference`. -/
def pairsNoRefTop (l : List (String × ReferenceOr α)) : Bool :=
  l.all (fun kv => !kv.2.isRef)

/-- No top-level slot of any components collection is an unresolved
`Reference`. -/
def componentsTopNoRef (comps : Components) : Bool :=
  pairsNoRefTop comps.security_schemes && pairsNoRefTop comps.responses &&
  pairsNoRefTop comps.parameters && pairsNoRefTop comps.examples &&
  pairsNoRefTop comps.request_bodies && pairsNoRefTop comps.headers &&
  pairsNoRefTop comps.links && pairsNoRefTop comps.callbacks &&
  pairsNoRefTop comps.path_items

/-- Lift of `componentsTopNoRef` to an optional components object. -/
def optComponentsTopNoRef : Option Components → Bool
  | none => true
  | some comps => componentsTopNoRef comps

/-- Lift of `pairsNoRefTop` to an optional paths object. -/
def optPathsTopNoRef : Option Paths → Bool
  | none => true
  | some ps => pairsNoRefTop ps.paths

/-- No top-level components slot and no path-item slot is an unresolved
`Reference`. -/
def openApiTopNoRef (o : OpenApiV31) : Bool :=
  optComponentsTopNoRef o.components && optPathsTopNoRef o.paths

/-! ### All-inline predicates (documents with zero `$ref` occurrences) -/

/-- The slot is an inline `Item` whose contents satisfy `inner`. -/
def slotInline (inner : α → Bool) : ReferenceOr α → Bool
  | .Item x => inner x
  | _ => false

/-- Trivial inner check for leaf types. -/
def innerTrue : α → Bool := fun _ => true

/-- Every example slot of the header is inline. -/
def headerInline (h : Header) : Bool :=
  h.examples.all (fun kv => slotInline innerTrue kv.2)

/-- Every example slot of the parameter data is inline. -/
def parameterDataInline (pd : ParameterData) : Bool :=
  pd.examples.all (fun kv => slotInline innerTrue kv.2)

/-- Every slot inside the parameter is inline. -/
def parameterInline : Parameter → Bool
  | .Query pd _ => parameterDataInline pd
  | .Header pd _ => parameterDataInline pd
  | .Path pd _ => parameterDataInline pd
  | .Cookie pd _ => parameterDataInline pd

/-- Every slot inside the response is inline. -/
def responseInline (r : Response) : Bool :=
  r.headers.all (fun kv => slotInline headerInline kv.2) &&
  r.links.all (fun kv => slotInline innerTrue kv.2)

/-- Every slot inside the operation is inline. -/
def operationInline (o : Operation) : Bool :=
  o.parameters.all (slotInline parameterInline) &&
  (match o.request_body with
   | none => true
   | some rb => slotInline innerTrue rb) &&
  (match o.responses with
   | none => true
   | some rs => rs.responses.all (fun kv => slotInline responseInline kv.2))

/-- Every slot inside the optional operation is inline. -/
def optOperationInline : Option Operation → Bool
  | none => true
  | some o => operationInline o

/-- Every slot inside the path item is inline. -/
def pathItemInline (item : PathItem) : Bool :=
  optOperationInline item.get && optOperationInline item.put &&
  optOperationInline item.post && optOperationInline item.delete &&
  optOperationInline item.options && optOperationInline item.head &&
  optOperationInline item.patch && optOperationInline item.trace &&
  item.parameters.all (slotInline parameterInline)

mutual
/-- The schema contains no `$ref` (no `reference` field anywhere). -/
def schemaRefFree : SchemarsSchema → Bool
  | .bool _ => true
  | .object reference subschemas _ =>
    reference.isNone &&
      (match subschemas with
       | none => true
       | some s => subschemasRefFree s)

/-- No `$ref` in any composition branch. -/
def subschemasRefFree : Subschemas → Bool
  | .mk ao ay oo if_s then_s else_s =>
    optSchemaListRefFree ao && optSchemaListRefFree ay && optSchemaListRefFree oo &&
    optSchemaRefFree if_s && optSchemaRefFree then_s && optSchemaRefFree else_s

/-- No `$ref` in an optional member list. -/
def optSchemaListRefFree : Option SchemaList → Bool
  | none => true
  | some l => schemaListRefFree l

/-- No `$ref` in a member list. -/
def schemaListRefFree : SchemaList → Bool
  | .nil => true
  | .cons h t => schemaRefFree h && schemaListRefFree t

/-- No `$ref` in an optional schema. -/
def optSchemaRefFree : Option SchemarsSchema → Bool
  | none => true
  | some s => schemaRefFree s
end

mutual
/-- Fuel needed by `dereference_schemars_schema` to fully traverse the
schema (an upper bound on the recursion depth of the model). -/
def schemaSize : SchemarsSchema → Nat
  | .bool _ => 1
  | .object _ subschemas _ =>
    1 + (match subschemas with
         | none => 0
         | some s => subschemasSize s)

/-- Fuel needed for the composition branches. -/
def subschemasSize : Subschemas → Nat
  | .mk ao ay oo if_s then_s else_s =>
    optSchemaListSize ao + optSchemaListSize ay + optSchemaListSize oo +
    optSchemaSize if_s + optSchemaSize then_s + optSchemaSize else_s

/-- Fuel needed for an optional member list. -/
def optSchemaListSize : Option SchemaList → Nat
  | none => 0
  | some l => 1 + schemaListSize l

/-- Fuel needed for a member list. -/
def schemaListSize : SchemaList → Nat
  | .nil => 0
  | .cons h t => 1 + schemaSize h + schemaListSize t

/-- Fuel needed for an optional schema. -/
def optSchemaSize : Option SchemarsSchema → Nat
  | none => 0
  | some s => 1 + schemaSize s
end

/-- Every slot of every components collection is inline and every schema is
reference-free. -/
def componentsInline (comps : Components) : Bool :=
  comps.security_schemes.all (fun kv => slotInline innerTrue kv.2) &&
  comps.responses.all (fun kv => slotInline responseInline kv.2) &&
  comps.schemas.all (fun kv => schemaRefFree kv.2.json_schema) &&
  comps.parameters.all (fun kv => slotInline parameterInline kv.2) &&
  comps.examples.all (fun kv => slotInline innerTrue kv.2) &&
  comps.request_bodies.all (fun kv => slotInline innerTrue kv.2) &&
  comps.headers.all (fun kv => slotInline headerInline kv.2) &&
  comps.links.all (fun kv => slotInline innerTrue kv.2) &&
  comps.callbacks.all (fun kv => slotInline innerTrue kv.2) &&
  comps.path_items.all (fun kv => slotInline pathItemInline kv.2)

/-- The document has zero `$ref` occurrences: every reference-or slot is the
inline `Item` variant and every schema is reference-free. -/
def openApiInline (o : OpenApiV31) : Bool :=
  (match o.components with
   | none => true
   | some comps => componentsInline comps) &&
  (match o.paths with
   | none => true
   | some ps => ps.paths.all (fun kv => slotInline pathItemInline kv.2))

/-- Enough fuel for every schema in the document. -/
def schemaFuelOk (o : OpenApiV31) (fuel : Nat) : Prop :=
  match o.components with
  | none => True
  | some comps => ∀ kv ∈ comps.schemas, schemaSize kv.2.json_schema ≤ fuel

/-- The lengths of the three member lists and the presence of the three
single branches of a `Subschemas` value (used to state that composition
structure is preserved without merging). -/
def subschemasShape (s : Subschemas) :
    Option Nat × Option Nat × Option Nat × Bool × Bool × Bool :=
  match s with
  | .mk ao ay oo if_s then_s else_s =>
    (ao.map SchemaList.length, ay.map SchemaList.length, oo.map SchemaList.length,
      if_s.isSome, then_s.isSome, else_s.isSome)

/-! ### Concrete documents used by counterexamples and witnesses -/

/-- Decoders that decode any raw value into an object schema with that value
as its opaque payload, and refuse everything else (sufficient for runs that
never decode the other shapes). -/
def exDecoders : Decoders where
  decSecurityScheme := fun _ => none
  decResponse := fun _ => none
  decParameter := fun _ => none
  decExample := fun _ => none
  decRequestBody := fun _ => none
  decHeader := fun _ => none
  decLink := fun _ => none
  decCallback := fun _ => none
  decPathItem := fun _ => none
  decSchemaObj := fun j => some (none, none, j)

/-- A header whose single example slot is an unresolved reference. -/
def exHeaderWithRef : Header :=
  { examples := [("e", .Reference "#/x" none none)], raw := .null }

/-- A response holding that header inline. -/
def exResponseNested : Response :=
  { headers := [("h", .Item exHeaderWithRef)], links := [], raw := .null }

/-- Components whose `responses` collection holds that response inline. -/
def exComponentsNested : Components :=
  { security_schemes := [], responses := [("r", .Item exResponseNested)],
    schemas := [], parameters := [], examples := [], request_bodies := [],
    headers := [], links := [], callbacks := [], path_items := [], raw := .null }

/-- A loaded document whose only reference sits in the examples of a header
nested inside a response — a position `dereference_response` does not
recurse into. -/
def exDocNestedRef : OpenApiDereferencer :=
  { json := .obj [],
    openapi := { servers := [], paths := none,
                 components := some exComponentsNested, raw := .null },
    serde_values := [], is_dereferenced := false }

/-- Does `dereference` succeed on `exDocNestedRef` while an unresolved
reference remains reachable from the result's root? -/
def exNestedRefSurvives : Bool :=
  match dereference exDecoders 1 exDocNestedRef with
  | .ok d => openApiHasRef d.openapi
  | _ => false

/-- Servers for the aggregation example. -/
def exServerTop : Server := { url := "https://top.example" }

/-- Path-item level server. -/
def exServerItem : Server := { url := "https://item.example" }

/-- GET-operation level server. -/
def exServerGet : Server := { url := "https://get.example" }

/-- A GET operation carrying one server. -/
def exOperationServers : Operation :=
  { parameters := [], request_body := none, responses := none,
    servers := [exServerGet], raw := .null }

/-- A path item with one server of its own and a GET operation. -/
def exPathItemServers : PathItem :=
  { get := some exOperationServers, put := none, post := none, delete := none,
    options := none, head := none, patch := none, trace := none,
    parameters := [], servers := [exServerItem], raw := .null }

/-- A loaded, reference-free document with one path and servers at all three
levels. -/
def exDocServers : OpenApiDereferencer :=
  { json := .obj [],
    openapi := { servers := [exServerTop],
                 paths := some { paths := [("/x", .Item exPathItemServers)],
                                 raw := .null },
                 components := none, raw := .null },
    serde_values := [], is_dereferenced := false }

/-- Raw document with two schema definitions, used for reference
resolution examples. -/
def exRawDoc : Json := .obj [("defs", .obj [("A", .num 1), ("B", .num 2)])]

/-- Does the string start with the character `#`? -/
def firstIsHash (s : String) : Bool :=
  match s.data with
  | '#' :: _ => true
  | _ => false

/-- Is the translation result a successfully produced query expression
anchored at the root (`$`)? -/
def okRootAnchored : Except OpenApiError String → Bool
  | .ok q =>
    match q.data with
    | '$' :: _ => true
    | _ => false
  | .error _ => false

/-! ## Helper lemmas -/

theorem data_append (a b : String) : (a ++ b).data = a.data ++ b.data := by
  cases a; cases b; rfl

theorem foldl_json_path_data (l : List (List Char)) :
    ∀ acc : String, ∃ t : List Char,
      (l.foldl (fun acc p => acc ++ "." ++ String.mk p) acc).data = acc.data ++ t := by
  induction l with
  | nil => exact fun acc => ⟨[], by simp⟩
  | cons p l ih =>
    intro acc
    obtain ⟨t, ht⟩ := ih (acc ++ "." ++ String.mk p)
    refine ⟨'.' :: (p ++ t), ?_⟩
    simpa [data_append, List.append_assoc] using ht

theorem dereference_type_eq_hit (decode : Json → Option α) (doc : Json) {c : Cache}
    {p : String} {v : Json} (hc : Cache.find c p = some v) :
    dereference_type decode doc c p =
      (match decode v with
       | some t => (.ok t, c, 0)
       | none => (.err (.ParsingError ("Error with serde parsing " ++ p)), c, 0)) := by
  unfold dereference_type
  rw [hc]

theorem dereference_type_eq_found (decode : Json → Option α) (doc : Json) {c : Cache}
    {p : String} {jp : String} {segs : List String} {v : Json}
    (hc : Cache.find c p = none) (hj : ref_to_json_path p = .ok jp)
    (hp : jsonPathParse jp = some segs) (hf : find_first doc segs = some v) :
    dereference_type decode doc c p =
      (match decode v with
       | some t => (.ok t, (p, v) :: c, 1)
       | none => (.err (.ParsingError ("Error with serde parsing " ++ p)),
           (p, v) :: c, 1)) := by
  unfold dereference_type
  rw [hc]
  simp only []
  rw [hj]
  simp only []
  rw [hp]
  simp only []
  rw [hf]

/-! ## Claim C7 -/

/-- Claim C7: `ref_to_json_path` fails, with `UnsupportedRefFormat` carrying
the offending reference, exactly when its input does not start with `#`
(including the empty string); for every input starting with `#` it returns a
root-anchored query expression and never an error. -/
theorem ref_to_json_path_hash_discipline (s : String) :
    (firstIsHash s = false →
      ref_to_json_path s = .error (.UnsupportedRefFormat s)) ∧
    (firstIsHash s = true → okRootAnchored (ref_to_json_path s) = true) := by
  constructor
  · intro h
    cases hs : s.data with
    | nil => simp [ref_to_json_path, hs]
    | cons c rest =>
      by_cases hc : c = '#'
      · subst hc
        simp [firstIsHash, hs] at h
      · simp [ref_to_json_path, hs, hc]
  · intro h
    cases hs : s.data with
    | nil => simp [firstIsHash, hs] at h
    | cons c rest =>
      by_cases hc : c = '#'
      · subst hc
        obtain ⟨t, ht⟩ := foldl_json_path_data (pathComponents (rest.drop 1)) "$"
        have hd : ("$" : String).data = '$' :: [] := rfl
        rw [hd, List.drop_one] at ht
        simp [ref_to_json_path, hs, okRootAnchored, ht]
      · simp [firstIsHash, hs, hc] at h

/-- Witness for C7 at concrete inputs on both sides of the dichotomy. -/
theorem ref_to_json_path_hash_discipline_witness :
    ref_to_json_path "http://mysite.com/x" =
      .error (.UnsupportedRefFormat "http://mysite.com/x") ∧
    okRootAnchored (ref_to_json_path "#/components/schemas/Pet") = true :=
  ⟨(ref_to_json_path_hash_discipline "http://mysite.com/x").1 rfl,
   (ref_to_json_path_hash_discipline "#/components/schemas/Pet").2 rfl⟩

/-! ## Claim C10 -/

/-- Claim C10: exactly one character after `#` is skipped unconditionally
before the remainder is split into slash-separated segments: `#/a/b` yields
`$.a.b`, the bare `#` yields `$`, `#foo/bar` yields `$.oo.bar`, and in
general the skipped second character never influences the result. -/
theorem ref_to_json_path_skips_one_char :
    ref_to_json_path "#/a/b" = .ok "$.a.b" ∧
    ref_to_json_path "#" = .ok "$" ∧
    ref_to_json_path "#foo/bar" = .ok "$.oo.bar" ∧
    ∀ (c1 c2 : Char) (rest : List Char),
      ref_to_json_path (String.mk ('#' :: c1 :: rest)) =
        ref_to_json_path (String.mk ('#' :: c2 :: rest)) :=
  ⟨rfl, rfl, rfl, fun _ _ _ => rfl⟩

/-! ## Claim C2 -/

/-- Claim C2 (code-bug evidence): resolving the pointer `#/a` against the
raw document `{}` — syntactically valid, but matching no node — panics
(`path_result.get(0).take().unwrap()` on an empty result) instead of
returning an error. By contrast, a located node that fails to decode does
return a `ParsingError` naming the offending pointer. -/
theorem dereference_type_panics_on_missing_node :
    dereference_type (fun j => some j) (Json.obj []) [] "#/a" =
      ((.panic : RResult Json), ([] : Cache), 1) ∧
    dereference_type (fun _ => (none : Option Nat)) exRawDoc [] "#/defs/A" =
      (.err (.ParsingError ("Error with serde parsing " ++ "#/defs/A")),
        [("#/defs/A", .num 1)], 1) :=
  ⟨rfl, rfl⟩

/-! ## Claim C3 -/

/-- Claim C3: after a successful resolution of pointer `p`, any later call
with any extension of the resulting cache returns an equal value while
performing zero raw-document query evaluations; a single call performs at
most one query; the cache only grows, and the only key it can gain is the
original pointer string `p`. -/
theorem dereference_type_cache_property (decode : Json → Option α) (doc : Json)
    (c : Cache) (p : String) (t : α) (c1 : Cache) (n : Nat)
    (h : dereference_type decode doc c p = (.ok t, c1, n)) (c2 : Cache)
    (hext : ∀ k v, Cache.find c1 k = some v → Cache.find c2 k = some v) :
    dereference_type decode doc c2 p = (.ok t, c2, 0) ∧ n ≤ 1 ∧
    (∀ k v, Cache.find c k = some v → Cache.find c1 k = some v) ∧
    (∀ k, Cache.find c1 k ≠ Cache.find c k → k = p) := by
  cases hc : Cache.find c p with
  | some v =>
    rw [dereference_type_eq_hit decode doc hc] at h
    cases hd : decode v with
    | none => rw [hd] at h; simp at h
    | some t' =>
      rw [hd] at h
      simp only [Prod.mk.injEq, RResult.ok.injEq] at h
      obtain ⟨ht, hc1, hn⟩ := h
      subst ht; subst hc1; subst hn
      have hfind2 : Cache.find c2 p = some v := hext p v hc
      refine ⟨?_, Nat.zero_le 1, fun k w hw => hw, fun k hk => absurd rfl hk⟩
      rw [dereference_type_eq_hit decode doc hfind2, hd]
  | none =>
    unfold dereference_type at h
    rw [hc] at h
    simp only [] at h
    cases hj : ref_to_json_path p with
    | error e => rw [hj] at h; simp at h
    | ok jp =>
      rw [hj] at h
      simp only [] at h
      cases hp : jsonPathParse jp with
      | none => rw [hp] at h; simp at h
      | some segs =>
        rw [hp] at h
        simp only [] at h
        cases hf : find_first doc segs with
        | none => rw [hf] at h; simp at h
        | some v =>
          rw [hf] at h
          simp only [] at h
          cases hd : decode v with
          | none => rw [hd] at h; simp at h
          | some t' =>
            rw [hd] at h
            simp only [Prod.mk.injEq, RResult.ok.injEq] at h
            obtain ⟨ht, hc1, hn⟩ := h
            subst ht; subst hc1; subst hn
            have hfind1 : Cache.find ((p, v) :: c) p = some v := by
              simp [Cache.find]
            have hfind2 : Cache.find c2 p = some v := hext p v hfind1
            refine ⟨?_, le_refl 1, ?_, ?_⟩
            · rw [dereference_type_eq_hit decode doc hfind2, hd]
            · intro k w hw
              have hkp : ¬ p = k := by
                intro he; subst he; rw [hc] at hw; exact Option.noConfusion hw
              simp [Cache.find, hkp, hw]
            · intro k hk
              by_contra hne
              apply hk
              have hkp : ¬ p = k := fun he => hne he.symm
              simp [Cache.find, hkp]

/-- Witness for C3: first resolution of `#/defs/A` from the empty cache,
then the cache property applied with the resulting cache itself. -/
theorem dereference_type_cache_property_witness :
    dereference_type (fun j => some j) exRawDoc
        [("#/defs/A", Json.num 1)] "#/defs/A" =
      (.ok (Json.num 1), [("#/defs/A", Json.num 1)], 0) ∧ (1 : Nat) ≤ 1 ∧
    (∀ k v, Cache.find [] k = some v →
      Cache.find [("#/defs/A", Json.num 1)] k = some v) ∧
    (∀ k, Cache.find [("#/defs/A", Json.num 1)] k ≠ Cache.find [] k →
      k = "#/defs/A") :=
  dereference_type_cache_property (fun j => some j) exRawDoc [] "#/defs/A"
    (Json.num 1) [("#/defs/A", Json.num 1)] 1 rfl
    [("#/defs/A", Json.num 1)] (fun _ _ hv => hv)

/-! ## Claim C5 -/

/-- Claim C5: `dereference_reference` is idempotent — an `Item` or an
already-resolved `DereferencedReference` slot passes through unchanged
(cache untouched), so applying resolution twice equals applying it once. -/
theorem dereference_reference_idempotent (decode : Json → Option α) (doc : Json) :
    (∀ (v : ReferenceOr α) (c : Cache), v.isRef = false →
        dereference_reference decode doc v c = (.ok v, c)) ∧
    (∀ (v v' : ReferenceOr α) (c c' : Cache),
        dereference_reference decode doc v c = (.ok v', c') →
        dereference_reference decode doc v' c' = (.ok v', c')) := by
  constructor
  · intro v c hv
    cases v with
    | Item i => rfl
    | Reference r s d => simp [ReferenceOr.isRef] at hv
    | DereferencedReference r s d i => rfl
  · intro v v' c c' h
    cases v with
    | Item i =>
      simp only [dereference_reference, Prod.mk.injEq, RResult.ok.injEq] at h
      obtain ⟨hv, hcc⟩ := h
      subst hv; rfl
    | DereferencedReference r s d i =>
      simp only [dereference_reference, Prod.mk.injEq, RResult.ok.injEq] at h
      obtain ⟨hv, hcc⟩ := h
      subst hv; rfl
    | Reference r s d =>
      simp only [dereference_reference] at h
      obtain ⟨⟨res, c3, n3⟩, hr⟩ :
          ∃ out, dereference_type decode doc c r = out := ⟨_, rfl⟩
      rw [hr] at h
      cases res with
      | ok item =>
        simp only [Prod.mk.injEq, RResult.ok.injEq] at h
        obtain ⟨hv, hcc⟩ := h
        subst hv; rfl
      | err e => simp at h
      | panic => simp at h
      | div => simp at h

/-- Witness for C5: an inline slot passes through unchanged. -/
theorem dereference_reference_idempotent_witness :
    dereference_reference (fun j => some j) (Json.obj [])
      (.Item (Json.num 3)) [] = (.ok (.Item (Json.num 3)), []) :=
  (dereference_reference_idempotent (fun j => some j) (Json.obj [])).1
    (.Item (Json.num 3)) [] rfl

/-! ## Claim C9 -/

/-- Claim C9: a `Reference` slot that resolves successfully becomes a
`DereferencedReference` carrying the same reference string, summary and
description, with only the resolved item added. -/
theorem dereference_reference_preserves_metadata (decode : Json → Option α)
    (doc : Json) (r : String) (s d : Option String) (c : Cache) (item : α)
    (c1 : Cache) (n : Nat)
    (h : dereference_type decode doc c r = (.ok item, c1, n)) :
    dereference_reference decode doc (.Reference r s d) c =
      (.ok (.DereferencedReference r s d item), c1) := by
  simp only [dereference_reference]
  rw [h]

/-- Witness for C9 at the pointer `#/defs/B` with summary and description
strings present. -/
theorem dereference_reference_preserves_metadata_witness :
    dereference_reference (fun j => some j) exRawDoc
      (.Reference "#/defs/B" (some "sum") (some "desc")) [] =
      (.ok (.DereferencedReference "#/defs/B" (some "sum") (some "desc")
        (Json.num 2)), [("#/defs/B", Json.num 2)]) :=
  dereference_reference_preserves_metadata (fun j => some j) exRawDoc
    "#/defs/B" (some "sum") (some "desc") [] (Json.num 2)
    [("#/defs/B", Json.num 2)] 1 rfl

/-! ## Monadic helper lemmas for the structural walker -/

theorem dbind_ok_step {x : DerefM α} {f : α → DerefM β} {c c1 : Cache} {a : α}
    (hx : x c = (.ok a, c1)) : dbind x f c = f a c1 := by
  unfold dbind
  rw [hx]

theorem dbind_ok_inv {x : DerefM α} {f : α → DerefM β} {c c' : Cache} {b : β}
    (h : dbind x f c = (.ok b, c')) :
    ∃ a c1, x c = (.ok a, c1) ∧ f a c1 = (.ok b, c') := by
  unfold dbind at h
  obtain ⟨⟨res, c1⟩, hr⟩ : ∃ out, x c = out := ⟨_, rfl⟩
  rw [hr] at h
  cases res with
  | ok a => exact ⟨a, c1, hr, h⟩
  | err e => simp at h
  | panic => simp at h
  | div => simp at h

theorem dpure_ok_inv {a b : α} {c c' : Cache} (h : dpure a c = (.ok b, c')) :
    a = b ∧ c = c' := by
  simp only [dpure, Prod.mk.injEq, RResult.ok.injEq] at h
  exact h

theorem dereference_reference_ok_not_ref {decode : Json → Option α} {doc : Json}
    {v v' : ReferenceOr α} {c c' : Cache}
    (h : dereference_reference decode doc v c = (.ok v', c')) :
    v'.isRef = false := by
  cases v with
  | Item i =>
    simp only [dereference_reference, Prod.mk.injEq, RResult.ok.injEq] at h
    obtain ⟨hv, _⟩ := h
    subst hv; rfl
  | DereferencedReference r s d i =>
    simp only [dereference_reference, Prod.mk.injEq, RResult.ok.injEq] at h
    obtain ⟨hv, _⟩ := h
    subst hv; rfl
  | Reference r s d =>
    simp only [dereference_reference] at h
    obtain ⟨⟨res, c3, n3⟩, hr⟩ :
        ∃ out, dereference_type decode doc c r = out := ⟨_, rfl⟩
    rw [hr] at h
    cases res with
    | ok item =>
      simp only [Prod.mk.injEq, RResult.ok.injEq] at h
      obtain ⟨hv, _⟩ := h
      subst hv; rfl
    | err e => simp at h
    | panic => simp at h
    | div => simp at h

theorem handle_dereferenced_ok_not_ref {v v' : ReferenceOr α} {f : α → DerefM α}
    {c c' : Cache} (hv : v.isRef = false)
    (h : handle_dereferenced v f c = (.ok v', c')) : v'.isRef = false := by
  cases v with
  | Reference r s d => simp [ReferenceOr.isRef] at hv
  | Item item =>
    simp only [handle_dereferenced] at h
    obtain ⟨⟨res, c1⟩, hr⟩ : ∃ out, f item c = out := ⟨_, rfl⟩
    rw [hr] at h
    cases res with
    | ok y =>
      simp only [Prod.mk.injEq, RResult.ok.injEq] at h
      obtain ⟨hy, _⟩ := h
      subst hy; rfl
    | err e => simp at h
    | panic => simp at h
    | div => simp at h
  | DereferencedReference r s d item =>
    simp only [handle_dereferenced] at h
    obtain ⟨⟨res, c1⟩, hr⟩ : ∃ out, f item c = out := ⟨_, rfl⟩
    rw [hr] at h
    cases res with
    | ok y =>
      simp only [Prod.mk.injEq, RResult.ok.injEq] at h
      obtain ⟨hy, _⟩ := h
      subst hy; rfl
    | err e => simp at h
    | panic => simp at h
    | div => simp at h

theorem slot_step_not_ref (dec : Json → Option α) (doc : Json) (f : α → DerefM α)
    (v : ReferenceOr α) (c : Cache) (y : ReferenceOr α) (c' : Cache)
    (h : (dbind (dereference_reference dec doc v)
      (fun v1 => handle_dereferenced v1 f)) c = (.ok y, c')) :
    (!y.isRef) = true := by
  obtain ⟨v1, cm, hv, hh⟩ := dbind_ok_inv h
  have h2 := handle_dereferenced_ok_not_ref (dereference_reference_ok_not_ref hv) hh
  simp [h2]

theorem derefList_ok_all {step : α → DerefM β} {P : β → Bool}
    (hstep : ∀ x c y c', step x c = (.ok y, c') → P y = true) :
    ∀ (l : List α) (c : Cache) (l' : List β) (c' : Cache),
      derefList step l c = (.ok l', c') → l'.all P = true := by
  intro l
  induction l with
  | nil =>
    intro c l' c' h
    obtain ⟨he, _⟩ := dpure_ok_inv h
    subst he; rfl
  | cons x xs ih =>
    intro c l' c' h
    simp only [derefList] at h
    obtain ⟨y, c1, hy, h⟩ := dbind_ok_inv h
    obtain ⟨ys, c2, hys, h⟩ := dbind_ok_inv h
    obtain ⟨he, _⟩ := dpure_ok_inv h
    subst he
    simp only [List.all_cons, Bool.and_eq_true]
    exact ⟨hstep x c y c1 hy, ih c1 ys c2 hys⟩

theorem derefPairs_ok_all {step : β → DerefM β} {P : β → Bool}
    (hstep : ∀ x c y c', step x c = (.ok y, c') → P y = true) :
    ∀ (l : List (String × β)) (c : Cache) (l' : List (String × β)) (c' : Cache),
      derefPairs step l c = (.ok l', c') → l'.all (fun kv => P kv.2) = true := by
  have hstep2 : ∀ (kv : String × β) (c : Cache) (y : String × β) (c' : Cache),
      (dbind (step kv.2) (fun v2 => dpure (kv.1, v2))) c = (.ok y, c') →
      P y.2 = true := by
    intro kv c y c' h
    obtain ⟨v2, cm, hv, hp⟩ := dbind_ok_inv h
    obtain ⟨he, _⟩ := dpure_ok_inv hp
    subst he
    exact hstep kv.2 c v2 cm hv
  intro l c l' c' h
  exact derefList_ok_all hstep2 l c l' c' h

theorem dereference_reference_step_not_ref (dec : Json → Option α) (doc : Json)
    (v : ReferenceOr α) (c : Cache) (y : ReferenceOr α) (c' : Cache)
    (h : dereference_reference dec doc v c = (.ok y, c')) :
    (!y.isRef) = true := by
  have := dereference_reference_ok_not_ref h
  simp [this]

theorem derefResponseSlot_not_ref (D : Decoders) (doc : Json)
    (v : ReferenceOr Response) (c : Cache) (y : ReferenceOr Response) (c' : Cache)
    (h : derefResponseSlot D doc v c = (.ok y, c')) : (!y.isRef) = true :=
  slot_step_not_ref D.decResponse doc (dereference_response D doc) v c y c' h

theorem derefParamSlot_not_ref (D : Decoders) (doc : Json)
    (v : ReferenceOr Parameter) (c : Cache) (y : ReferenceOr Parameter) (c' : Cache)
    (h : derefParamSlot D doc v c = (.ok y, c')) : (!y.isRef) = true :=
  slot_step_not_ref D.decParameter doc (dereference_parameter D doc) v c y c' h

theorem derefHeaderSlot_not_ref (D : Decoders) (doc : Json)
    (v : ReferenceOr Header) (c : Cache) (y : ReferenceOr Header) (c' : Cache)
    (h : derefHeaderSlot D doc v c = (.ok y, c')) : (!y.isRef) = true :=
  slot_step_not_ref D.decHeader doc (dereference_header D doc) v c y c' h

theorem derefPathItemSlot_not_ref (D : Decoders) (doc : Json)
    (v : ReferenceOr PathItem) (c : Cache) (y : ReferenceOr PathItem) (c' : Cache)
    (h : derefPathItemSlot D doc v c = (.ok y, c')) : (!y.isRef) = true :=
  slot_step_not_ref D.decPathItem doc (dereference_path_item D doc) v c y c' h

theorem dereference_components_ok_no_ref (D : Decoders) (doc : Json) (fuel : Nat)
    (comps : Option Components) (c : Cache) (out : Option Components) (c' : Cache)
    (h : dereference_components D doc fuel comps c = (.ok out, c')) :
    optComponentsTopNoRef out = true := by
  cases comps with
  | none =>
    obtain ⟨he, _⟩ := dpure_ok_inv h
    subst he; rfl
  | some comps =>
    simp only [dereference_components] at h
    obtain ⟨ss, c1, hss, h⟩ := dbind_ok_inv h
    obtain ⟨rsp, c2, hrsp, h⟩ := dbind_ok_inv h
    obtain ⟨sch, c3, hsch, h⟩ := dbind_ok_inv h
    obtain ⟨par, c4, hpar, h⟩ := dbind_ok_inv h
    obtain ⟨exs, c5, hexs, h⟩ := dbind_ok_inv h
    obtain ⟨rbs, c6, hrbs, h⟩ := dbind_ok_inv h
    obtain ⟨hds, c7, hhds, h⟩ := dbind_ok_inv h
    obtain ⟨lks, c8, hlks, h⟩ := dbind_ok_inv h
    obtain ⟨cbs, c9, hcbs, h⟩ := dbind_ok_inv h
    obtain ⟨pis, c10, hpis, h⟩ := dbind_ok_inv h
    obtain ⟨he, _⟩ := dpure_ok_inv h
    subst he
    have f1 := derefPairs_ok_all
      (dereference_reference_step_not_ref D.decSecurityScheme doc) _ _ _ _ hss
    have f2 := derefPairs_ok_all (derefResponseSlot_not_ref D doc) _ _ _ _ hrsp
    have f4 := derefPairs_ok_all (derefParamSlot_not_ref D doc) _ _ _ _ hpar
    have f5 := derefPairs_ok_all
      (dereference_reference_step_not_ref D.decExample doc) _ _ _ _ hexs
    have f6 := derefPairs_ok_all
      (dereference_reference_step_not_ref D.decRequestBody doc) _ _ _ _ hrbs
    have f7 := derefPairs_ok_all (derefHeaderSlot_not_ref D doc) _ _ _ _ hhds
    have f8 := derefPairs_ok_all
      (dereference_reference_step_not_ref D.decLink doc) _ _ _ _ hlks
    have f9 := derefPairs_ok_all
      (dereference_reference_step_not_ref D.decCallback doc) _ _ _ _ hcbs
    have f10 := derefPairs_ok_all
      (dereference_reference_step_not_ref D.decPathItem doc) _ _ _ _ hpis
    simp [optComponentsTopNoRef, componentsTopNoRef, pairsNoRefTop,
      f1, f2, f4, f5, f6, f7, f8, f9, f10]

theorem dereference_paths_ok_no_ref (D : Decoders) (doc : Json)
    (paths : Option Paths) (c : Cache) (out : Option Paths) (c' : Cache)
    (h : dereference_paths D doc paths c = (.ok out, c')) :
    optPathsTopNoRef out = true := by
  cases paths with
  | none =>
    obtain ⟨he, _⟩ := dpure_ok_inv h
    subst he; rfl
  | some ps =>
    simp only [dereference_paths] at h
    obtain ⟨pmap, c1, hpm, h⟩ := dbind_ok_inv h
    obtain ⟨he, _⟩ := dpure_ok_inv h
    subst he
    have f := derefPairs_ok_all (derefPathItemSlot_not_ref D doc) _ _ _ _ hpm
    simp [optPathsTopNoRef, pairsNoRefTop, f]

/-! ## Claim C1 -/

/-- Claim C1 counterexample: on `exDocNestedRef` the full `dereference` pass
succeeds, yet an unresolved `ReferenceOr::Reference` slot (in the examples
of a header nested inside a response) is still reachable from the document
root — so the claim as stated is false on the code. -/
theorem dereference_leaves_nested_reference : exNestedRefSurvives = true := rfl

/-- Claim C1 (amended): after a successful `dereference` pass, every
top-level slot of every components collection and every path-item slot in
paths is `Inline` or `Resolved`; unresolved references can survive at deeper
positions the walker does not visit (for example the examples of a header
nested inside a response). -/
theorem dereference_top_level_no_unresolved (D : Decoders) (fuel : Nat)
    (self self' : OpenApiDereferencer)
    (h : dereference D fuel self = .ok self') :
    openApiTopNoRef self'.openapi = true := by
  unfold dereference at h
  obtain ⟨⟨rc, c1⟩, hc⟩ : ∃ out, dereference_components D self.json fuel
      self.openapi.components self.serde_values = out := ⟨_, rfl⟩
  rw [hc] at h
  cases rc with
  | ok comps2 =>
    simp only [] at h
    obtain ⟨⟨rp, c2⟩, hp⟩ : ∃ out,
        dereference_paths D self.json self.openapi.paths c1 = out := ⟨_, rfl⟩
    rw [hp] at h
    cases rp with
    | ok paths2 =>
      simp only [RResult.ok.injEq] at h
      subst h
      have hcn := dereference_components_ok_no_ref D self.json fuel
        self.openapi.components self.serde_values comps2 c1 hc
      have hpn := dereference_paths_ok_no_ref D self.json
        self.openapi.paths c1 paths2 c2 hp
      simp only [openApiTopNoRef, Bool.and_eq_true]
      exact ⟨hcn, hpn⟩
    | err e => simp at h
    | panic => simp at h
    | div => simp at h
  | err e => simp at h
  | panic => simp at h
  | div => simp at h

/-- Witness for the amended C1 on a concrete successful pass. -/
theorem dereference_top_level_no_unresolved_witness :
    openApiTopNoRef
      ({ exDocNestedRef with is_dereferenced := true } :
        OpenApiDereferencer).openapi = true :=
  dereference_top_level_no_unresolved exDecoders 1 exDocNestedRef
    { exDocNestedRef with is_dereferenced := true } rfl

/-! ## Claim C4 -/

theorem get_servers_go_no_ref :
    ∀ (l : List (String × ReferenceOr PathItem)), pairsNoRefTop l = true →
      ∀ acc, get_servers_go acc l =
        .ok (acc ++ (l.map pathSlotContrib).flatten) := by
  intro l
  induction l with
  | nil => intro _ acc; simp [get_servers_go]
  | cons kv rest ih =>
    intro hl acc
    obtain ⟨k, slot⟩ := kv
    simp only [pairsNoRefTop, List.all_cons, Bool.and_eq_true] at hl
    obtain ⟨hs, hrest⟩ := hl
    cases slot with
    | Reference r s d => simp [ReferenceOr.isRef] at hs
    | Item item =>
      simp only [get_servers_go]
      rw [ih hrest (acc ++ pathItemServers item)]
      simp [pathSlotContrib, pathItemServers, List.append_assoc]
    | DereferencedReference r s d item =>
      simp only [get_servers_go]
      rw [ih hrest (acc ++ pathItemServers item)]
      simp [pathSlotContrib, pathItemServers, List.append_assoc]

/-- Claim C4: `get_servers` before `dereference` fails with
`DerefBeforeGettingServers`; after a successful `dereference` it returns the
top-level servers followed, for each path item in document order, by that
path item's servers and then its GET operation's servers when present. -/
theorem get_servers_state_machine (D : Decoders) (fuel : Nat)
    (self self' : OpenApiDereferencer)
    (h1 : self.is_dereferenced = false)
    (h2 : dereference D fuel self = .ok self') :
    get_servers self = .error .DerefBeforeGettingServers ∧
    get_servers self' = .ok (spec_servers self'.openapi) := by
  constructor
  · simp [get_servers, h1]
  · unfold dereference at h2
    obtain ⟨⟨rc, c1⟩, hc⟩ : ∃ out, dereference_components D self.json fuel
        self.openapi.components self.serde_values = out := ⟨_, rfl⟩
    rw [hc] at h2
    cases rc with
    | ok comps2 =>
      simp only [] at h2
      obtain ⟨⟨rp, c2⟩, hp⟩ : ∃ out,
          dereference_paths D self.json self.openapi.paths c1 = out := ⟨_, rfl⟩
      rw [hp] at h2
      cases rp with
      | ok paths2 =>
        simp only [RResult.ok.injEq] at h2
        subst h2
        have hpn := dereference_paths_ok_no_ref D self.json
          self.openapi.paths c1 paths2 c2 hp
        cases paths2 with
        | none => simp [get_servers, spec_servers]
        | some ps2 =>
          simp only [optPathsTopNoRef] at hpn
          simp [get_servers, spec_servers, get_servers_go_no_ref ps2.paths hpn]
      | err e => simp at h2
      | panic => simp at h2
      | div => simp at h2
    | err e => simp at h2
    | panic => simp at h2
    | div => simp at h2

/-- Witness for C4: the concrete three-level document, before and after
dereferencing. -/
theorem get_servers_state_machine_witness :
    get_servers exDocServers = .error .DerefBeforeGettingServers ∧
    get_servers ({ exDocServers with is_dereferenced := true } :
        OpenApiDereferencer) =
      .ok (spec_servers ({ exDocServers with is_dereferenced := true } :
        OpenApiDereferencer).openapi) :=
  get_servers_state_machine exDecoders 1 exDocServers
    { exDocServers with is_dereferenced := true } rfl rfl

/-! ## Claim C8 machinery: identity on reference-free documents -/

theorem slotInline_isItem {inner : α → Bool} {v : ReferenceOr α}
    (h : slotInline inner v = true) : ∃ x, v = .Item x ∧ inner x = true := by
  cases v with
  | Item x => exact ⟨x, rfl, h⟩
  | Reference r s d => simp [slotInline] at h
  | DereferencedReference r s d i => simp [slotInline] at h

theorem derefList_id {step : α → DerefM α} {Q : α → Bool}
    (hstep : ∀ x c, Q x = true → step x c = (.ok x, c)) :
    ∀ (l : List α) (c : Cache), l.all Q = true → derefList step l c = (.ok l, c) := by
  intro l
  induction l with
  | nil => intro c _; rfl
  | cons x xs ih =>
    intro c hall
    simp only [List.all_cons, Bool.and_eq_true] at hall
    obtain ⟨hx, hxs⟩ := hall
    simp only [derefList]
    rw [dbind_ok_step (hstep x c hx), dbind_ok_step (ih c hxs)]
    rfl

theorem derefPairs_id {step : β → DerefM β} {Q : β → Bool}
    (hstep : ∀ x c, Q x = true → step x c = (.ok x, c)) :
    ∀ (l : List (String × β)) (c : Cache),
      l.all (fun kv => Q kv.2) = true → derefPairs step l c = (.ok l, c) := by
  have hstep2 : ∀ (kv : String × β) (c : Cache), Q kv.2 = true →
      (dbind (step kv.2) (fun v2 => dpure (kv.1, v2))) c = (.ok kv, c) := by
    intro kv c hq
    rw [dbind_ok_step (hstep kv.2 c hq)]
    rfl
  intro l c h
  exact derefList_id hstep2 l c h

theorem dereference_reference_item_id (dec : Json → Option α) (doc : Json)
    (x : α) (c : Cache) :
    dereference_reference dec doc (.Item x) c = (.ok (.Item x), c) := rfl

theorem slot_inline_dr_id (dec : Json → Option α) (doc : Json) (inner : α → Bool) :
    ∀ (x : ReferenceOr α) (c : Cache), slotInline inner x = true →
      dereference_reference dec doc x c = (.ok x, c) := by
  intro x c hq
  obtain ⟨e, he, _⟩ := slotInline_isItem hq
  subst he; rfl

theorem dereference_header_id (D : Decoders) (doc : Json) (h : Header)
    (hh : headerInline h = true) (c : Cache) :
    dereference_header D doc h c = (.ok h, c) := by
  simp only [dereference_header]
  rw [dbind_ok_step (derefPairs_id
    (slot_inline_dr_id D.decExample doc innerTrue) h.examples c hh)]
  rfl

theorem dereference_parameter_data_id (D : Decoders) (doc : Json)
    (pd : ParameterData) (hp : parameterDataInline pd = true) (c : Cache) :
    dereference_parameter_data D doc pd c = (.ok pd, c) := by
  simp only [dereference_parameter_data]
  rw [dbind_ok_step (derefPairs_id
    (slot_inline_dr_id D.decExample doc innerTrue) pd.examples c hp)]
  rfl

theorem dereference_parameter_id (D : Decoders) (doc : Json) (p : Parameter)
    (hp : parameterInline p = true) (c : Cache) :
    dereference_parameter D doc p c = (.ok p, c) := by
  cases p with
  | Query pd extra =>
    simp only [parameterInline] at hp
    simp only [dereference_parameter]
    rw [dbind_ok_step (dereference_parameter_data_id D doc pd hp c)]
    rfl
  | Header pd extra =>
    simp only [parameterInline] at hp
    simp only [dereference_parameter]
    rw [dbind_ok_step (dereference_parameter_data_id D doc pd hp c)]
    rfl
  | Path pd extra =>
    simp only [parameterInline] at hp
    simp only [dereference_parameter]
    rw [dbind_ok_step (dereference_parameter_data_id D doc pd hp c)]
    rfl
  | Cookie pd extra =>
    simp only [parameterInline] at hp
    simp only [dereference_parameter]
    rw [dbind_ok_step (dereference_parameter_data_id D doc pd hp c)]
    rfl

theorem derefParamSlot_id (D : Decoders) (doc : Json) :
    ∀ (v : ReferenceOr Parameter) (c : Cache),
      slotInline parameterInline v = true → derefParamSlot D doc v c = (.ok v, c) := by
  intro v c hv
  obtain ⟨p, he, hp⟩ := slotInline_isItem hv
  subst he
  simp only [derefParamSlot]
  rw [dbind_ok_step (dereference_reference_item_id D.decParameter doc p c)]
  simp only [handle_dereferenced]
  rw [dereference_parameter_id D doc p hp c]

theorem dereference_response_id (D : Decoders) (doc : Json) (r : Response)
    (hr : responseInline r = true) (c : Cache) :
    dereference_response D doc r c = (.ok r, c) := by
  simp only [responseInline, Bool.and_eq_true] at hr
  obtain ⟨hh, hl⟩ := hr
  simp only [dereference_response]
  rw [dbind_ok_step (derefPairs_id
    (slot_inline_dr_id D.decHeader doc headerInline) r.headers c hh)]
  rw [dbind_ok_step (derefPairs_id
    (slot_inline_dr_id D.decLink doc innerTrue) r.links c hl)]
  rfl

theorem derefResponseSlot_id (D : Decoders) (doc : Json) :
    ∀ (v : ReferenceOr Response) (c : Cache),
      slotInline responseInline v = true → derefResponseSlot D doc v c = (.ok v, c) := by
  intro v c hv
  obtain ⟨r, he, hr⟩ := slotInline_isItem hv
  subst he
  simp only [derefResponseSlot]
  rw [dbind_ok_step (dereference_reference_item_id D.decResponse doc r c)]
  simp only [handle_dereferenced]
  rw [dereference_response_id D doc r hr c]

theorem derefHeaderSlot_id (D : Decoders) (doc : Json) :
    ∀ (v : ReferenceOr Header) (c : Cache),
      slotInline headerInline v = true → derefHeaderSlot D doc v c = (.ok v, c) := by
  intro v c hv
  obtain ⟨x, he, hx⟩ := slotInline_isItem hv
  subst he
  simp only [derefHeaderSlot]
  rw [dbind_ok_step (dereference_reference_item_id D.decHeader doc x c)]
  simp only [handle_dereferenced]
  rw [dereference_header_id D doc x hx c]

theorem dereference_operation_id (D : Decoders) (doc : Json) (o : Operation)
    (ho : operationInline o = true) (c : Cache) :
    dereference_operation D doc o c = (.ok o, c) := by
  simp only [operationInline, Bool.and_eq_true] at ho
  obtain ⟨⟨hps, hrb⟩, hrs⟩ := ho
  simp only [dereference_operation]
  rw [dbind_ok_step (derefList_id (derefParamSlot_id D doc) o.parameters c hps)]
  have hrb2 : derefOpt (dereference_reference D.decRequestBody doc)
      o.request_body c = (.ok o.request_body, c) := by
    cases hox : o.request_body with
    | none => rfl
    | some rb =>
      rw [hox] at hrb
      simp only [derefOpt]
      rw [dbind_ok_step (slot_inline_dr_id D.decRequestBody doc innerTrue rb c hrb)]
      rfl
  rw [dbind_ok_step hrb2]
  rw [dbind_ok_step (derefList_id (derefParamSlot_id D doc) o.parameters c hps)]
  have hrs2 : (match o.responses with
      | none => dpure none
      | some rs => dbind (derefPairs (derefResponseSlot D doc) rs.responses)
          (fun rmap => dpure (some { rs with responses := rmap }))) c
      = (.ok o.responses, c) := by
    cases hox : o.responses with
    | none => rfl
    | some rs =>
      rw [hox] at hrs
      simp only []
      rw [dbind_ok_step (derefPairs_id (derefResponseSlot_id D doc)
        rs.responses c hrs)]
      rfl
  rw [dbind_ok_step hrs2]
  rfl

theorem derefOpt_operation_id (D : Decoders) (doc : Json) (x : Option Operation)
    (hx : optOperationInline x = true) (c : Cache) :
    derefOpt (dereference_operation D doc) x c = (.ok x, c) := by
  cases x with
  | none => rfl
  | some o =>
    simp only [optOperationInline] at hx
    simp only [derefOpt]
    rw [dbind_ok_step (dereference_operation_id D doc o hx c)]
    rfl

theorem dereference_path_item_id (D : Decoders) (doc : Json) (item : PathItem)
    (hi : pathItemInline item = true) (c : Cache) :
    dereference_path_item D doc item c = (.ok item, c) := by
  simp only [pathItemInline, Bool.and_eq_true] at hi
  obtain ⟨⟨⟨⟨⟨⟨⟨⟨hg, hpu⟩, hpo⟩, hde⟩, hop⟩, hhe⟩, hpa⟩, htr⟩, hps⟩ := hi
  simp only [dereference_path_item]
  rw [dbind_ok_step (derefOpt_operation_id D doc item.get hg c)]
  rw [dbind_ok_step (derefOpt_operation_id D doc item.put hpu c)]
  rw [dbind_ok_step (derefOpt_operation_id D doc item.post hpo c)]
  rw [dbind_ok_step (derefOpt_operation_id D doc item.delete hde c)]
  rw [dbind_ok_step (derefOpt_operation_id D doc item.options hop c)]
  rw [dbind_ok_step (derefOpt_operation_id D doc item.head hhe c)]
  rw [dbind_ok_step (derefOpt_operation_id D doc item.patch hpa c)]
  rw [dbind_ok_step (derefOpt_operation_id D doc item.trace htr c)]
  rw [dbind_ok_step (derefList_id (derefParamSlot_id D doc) item.parameters c hps)]
  rfl

theorem derefPathItemSlot_id (D : Decoders) (doc : Json) :
    ∀ (v : ReferenceOr PathItem) (c : Cache),
      slotInline pathItemInline v = true → derefPathItemSlot D doc v c = (.ok v, c) := by
  intro v c hv
  obtain ⟨x, he, hx⟩ := slotInline_isItem hv
  subst he
  simp only [derefPathItemSlot]
  rw [dbind_ok_step (dereference_reference_item_id D.decPathItem doc x c)]
  simp only [handle_dereferenced]
  rw [dereference_path_item_id D doc x hx c]

theorem schemaSubst_none (D : Decoders) (doc : Json)
    (osub : Option Subschemas) (oth : Json) (c : Cache) :
    schemaSubst D doc none osub oth c = (.ok (none, osub, oth), c) := rfl

theorem schemaSubst_some (D : Decoders) (doc : Json) (r : String)
    (osub : Option Subschemas) (oth : Json) (c : Cache)
    (t : Option String × Option Subschemas × Json) (c1 : Cache) (n : Nat)
    (h : dereference_type D.decSchemaObj doc c r = (.ok t, c1, n)) :
    schemaSubst D doc (some r) osub oth c = (.ok t, c1) := by
  simp only [schemaSubst]
  rw [h]

theorem schemaRefFree_object_none (r : Option String) (o : Json) :
    schemaRefFree (.object r none o) = r.isNone := by
  simp [schemaRefFree]

theorem schemaRefFree_object_some (r : Option String) (sub : Subschemas) (o : Json) :
    schemaRefFree (.object r (some sub) o) = (r.isNone && subschemasRefFree sub) := by
  simp [schemaRefFree]

theorem subschemasRefFree_mk (ao ay oo : Option SchemaList)
    (i t e : Option SchemarsSchema) :
    subschemasRefFree (.mk ao ay oo i t e) =
      (optSchemaListRefFree ao && optSchemaListRefFree ay &&
        optSchemaListRefFree oo && optSchemaRefFree i &&
        optSchemaRefFree t && optSchemaRefFree e) := by
  simp [subschemasRefFree]

theorem optSchemaListRefFree_some (l : SchemaList) :
    optSchemaListRefFree (some l) = schemaListRefFree l := by
  simp [optSchemaListRefFree]

theorem optSchemaRefFree_some (s : SchemarsSchema) :
    optSchemaRefFree (some s) = schemaRefFree s := by
  simp [optSchemaRefFree]

theorem schemaListRefFree_cons (h : SchemarsSchema) (t : SchemaList) :
    schemaListRefFree (.cons h t) = (schemaRefFree h && schemaListRefFree t) := by
  simp [schemaListRefFree]

theorem schemaSize_object_some (r : Option String) (sub : Subschemas) (o : Json) :
    schemaSize (.object r (some sub) o) = 1 + subschemasSize sub := by
  simp [schemaSize]

theorem subschemasSize_mk (ao ay oo : Option SchemaList)
    (i t e : Option SchemarsSchema) :
    subschemasSize (.mk ao ay oo i t e) =
      optSchemaListSize ao + optSchemaListSize ay + optSchemaListSize oo +
      optSchemaSize i + optSchemaSize t + optSchemaSize e := by
  simp [subschemasSize]

theorem optSchemaListSize_some (l : SchemaList) :
    optSchemaListSize (some l) = 1 + schemaListSize l := by
  simp [optSchemaListSize]

theorem optSchemaSize_some (s : SchemarsSchema) :
    optSchemaSize (some s) = 1 + schemaSize s := by
  simp [optSchemaSize]

theorem schemaListSize_cons (h : SchemarsSchema) (t : SchemaList) :
    schemaListSize (.cons h t) = 1 + schemaSize h + schemaListSize t := by
  simp [schemaListSize]

theorem schemaSize_pos (s : SchemarsSchema) : 1 ≤ schemaSize s := by
  cases s with
  | bool b => simp [schemaSize]
  | object r sub o =>
    cases sub with
    | none => simp [schemaSize]
    | some sub => rw [schemaSize_object_some]; omega

theorem schema_deref_id (D : Decoders) (doc : Json) : ∀ fuel : Nat,
    (∀ (s : SchemarsSchema) (c : Cache), schemaRefFree s = true →
      schemaSize s ≤ fuel →
      dereference_schemars_schema D doc fuel s c = (.ok s, c)) ∧
    (∀ (x : Option SchemaList) (c : Cache), optSchemaListRefFree x = true →
      optSchemaListSize x ≤ fuel →
      derefOptSchemaList D doc fuel x c = (.ok x, c)) ∧
    (∀ (x : Option SchemarsSchema) (c : Cache), optSchemaRefFree x = true →
      optSchemaSize x ≤ fuel →
      derefOptSchema D doc fuel x c = (.ok x, c)) ∧
    (∀ (l : SchemaList) (c : Cache), schemaListRefFree l = true →
      schemaListSize l ≤ fuel →
      dereference_schema_list D doc fuel l c = (.ok l, c)) := by
  intro fuel
  induction fuel with
  | zero =>
    refine ⟨?_, ?_, ?_, ?_⟩
    · intro s c _ hsize
      exfalso
      have hpos := schemaSize_pos s
      omega
    · intro x c _ hsize
      cases x with
      | none => rfl
      | some l =>
        exfalso
        have hpos := optSchemaListSize_some l
        omega
    · intro x c _ hsize
      cases x with
      | none => rfl
      | some s =>
        exfalso
        have hpos := optSchemaSize_some s
        omega
    · intro l c _ hsize
      cases l with
      | nil => rfl
      | cons h t =>
        exfalso
        have hpos := schemaListSize_cons h t
        omega
  | succ fuel ih =>
    obtain ⟨ihS, ihOL, ihOS, ihL⟩ := ih
    have stepS : ∀ (s : SchemarsSchema) (c : Cache), schemaRefFree s = true →
        schemaSize s ≤ fuel + 1 →
        dereference_schemars_schema D doc (fuel + 1) s c = (.ok s, c) := by
      intro s c hfree hsize
      cases s with
      | bool b => rfl
      | object reference subschemas other =>
        cases subschemas with
        | none =>
          rw [schemaRefFree_object_none] at hfree
          have hrefn : reference = none := by
            cases reference with
            | none => rfl
            | some r => simp [Option.isNone] at hfree
          subst hrefn
          rfl
        | some sub =>
          rw [schemaRefFree_object_some, Bool.and_eq_true] at hfree
          obtain ⟨href, hsub⟩ := hfree
          have hrefn : reference = none := by
            cases reference with
            | none => rfl
            | some r => simp [Option.isNone] at href
          subst hrefn
          cases sub with
          | mk ao ay oo if_s then_s else_s =>
            rw [subschemasRefFree_mk] at hsub
            simp only [Bool.and_eq_true] at hsub
            obtain ⟨⟨⟨⟨⟨hao, hay⟩, hoo⟩, his⟩, hts⟩, hes⟩ := hsub
            rw [schemaSize_object_some, subschemasSize_mk] at hsize
            simp only [dereference_schemars_schema]
            rw [dbind_ok_step (schemaSubst_none D doc
              (some (.mk ao ay oo if_s then_s else_s)) other c)]
            simp only []
            rw [dbind_ok_step (ihOL ao c hao (by omega))]
            rw [dbind_ok_step (ihOL ay c hay (by omega))]
            rw [dbind_ok_step (ihOL oo c hoo (by omega))]
            rw [dbind_ok_step (ihOS if_s c his (by omega))]
            rw [dbind_ok_step (ihOS else_s c hes (by omega))]
            rw [dbind_ok_step (ihOS then_s c hts (by omega))]
            rfl
    have stepL : ∀ (l : SchemaList) (c : Cache), schemaListRefFree l = true →
        schemaListSize l ≤ fuel + 1 →
        dereference_schema_list D doc (fuel + 1) l c = (.ok l, c) := by
      intro l c hfree hsize
      cases l with
      | nil => rfl
      | cons hd tl =>
        rw [schemaListRefFree_cons, Bool.and_eq_true] at hfree
        obtain ⟨hh, ht⟩ := hfree
        rw [schemaListSize_cons] at hsize
        simp only [dereference_schema_list]
        rw [dbind_ok_step (ihS hd c hh (by omega))]
        rw [dbind_ok_step (ihL tl c ht (by omega))]
        rfl
    refine ⟨stepS, ?_, ?_, stepL⟩
    · intro x c hfree hsize
      cases x with
      | none => rfl
      | some l =>
        rw [optSchemaListRefFree_some] at hfree
        rw [optSchemaListSize_some] at hsize
        simp only [derefOptSchemaList]
        rw [dbind_ok_step (ihL l c hfree (by omega))]
        rfl
    · intro x c hfree hsize
      cases x with
      | none => rfl
      | some s =>
        rw [optSchemaRefFree_some] at hfree
        rw [optSchemaSize_some] at hsize
        simp only [derefOptSchema]
        rw [dbind_ok_step (ihS s c hfree (by omega))]
        rfl

theorem dereference_schemas_id (D : Decoders) (doc : Json) (fuel : Nat)
    (so : SchemaObject) (hs : schemaRefFree so.json_schema = true)
    (hf : schemaSize so.json_schema ≤ fuel) (c : Cache) :
    dereference_schemas D doc fuel so c = (.ok so, c) := by
  simp only [dereference_schemas]
  rw [dbind_ok_step ((schema_deref_id D doc fuel).1 so.json_schema c hs hf)]
  rfl

theorem dereference_components_id (D : Decoders) (doc : Json) (fuel : Nat)
    (comps : Option Components) (c : Cache)
    (hin : (match comps with
      | none => true
      | some cs => componentsInline cs) = true)
    (hf : ∀ cs, comps = some cs →
      ∀ kv ∈ cs.schemas, schemaSize kv.2.json_schema ≤ fuel) :
    dereference_components D doc fuel comps c = (.ok comps, c) := by
  cases comps with
  | none => rfl
  | some cs =>
    simp only [componentsInline, Bool.and_eq_true] at hin
    obtain ⟨⟨⟨⟨⟨⟨⟨⟨⟨h1, h2⟩, h3⟩, h4⟩, h5⟩, h6⟩, h7⟩, h8⟩, h9⟩, h10⟩ := hin
    have hsch : ∀ (x : SchemaObject) (c : Cache),
        (schemaRefFree x.json_schema &&
          decide (schemaSize x.json_schema ≤ fuel)) = true →
        dereference_schemas D doc fuel x c = (.ok x, c) := by
      intro x c hx
      simp only [Bool.and_eq_true, decide_eq_true_eq] at hx
      exact dereference_schemas_id D doc fuel x hx.1 hx.2 c
    have h3' : cs.schemas.all (fun kv =>
        schemaRefFree kv.2.json_schema &&
          decide (schemaSize kv.2.json_schema ≤ fuel)) = true := by
      rw [List.all_eq_true] at h3 ⊢
      intro kv hkv
      simp only [Bool.and_eq_true, decide_eq_true_eq]
      exact ⟨h3 kv hkv, hf cs rfl kv hkv⟩
    simp only [dereference_components]
    rw [dbind_ok_step (derefPairs_id
      (slot_inline_dr_id D.decSecurityScheme doc innerTrue) cs.security_schemes c h1)]
    rw [dbind_ok_step (derefPairs_id (derefResponseSlot_id D doc) cs.responses c h2)]
    rw [dbind_ok_step (derefPairs_id hsch cs.schemas c h3')]
    rw [dbind_ok_step (derefPairs_id (derefParamSlot_id D doc) cs.parameters c h4)]
    rw [dbind_ok_step (derefPairs_id
      (slot_inline_dr_id D.decExample doc innerTrue) cs.examples c h5)]
    rw [dbind_ok_step (derefPairs_id
      (slot_inline_dr_id D.decRequestBody doc innerTrue) cs.request_bodies c h6)]
    rw [dbind_ok_step (derefPairs_id (derefHeaderSlot_id D doc) cs.headers c h7)]
    rw [dbind_ok_step (derefPairs_id
      (slot_inline_dr_id D.decLink doc innerTrue) cs.links c h8)]
    rw [dbind_ok_step (derefPairs_id
      (slot_inline_dr_id D.decCallback doc innerTrue) cs.callbacks c h9)]
    rw [dbind_ok_step (derefPairs_id
      (slot_inline_dr_id D.decPathItem doc pathItemInline) cs.path_items c h10)]
    rfl

theorem dereference_paths_id (D : Decoders) (doc : Json) (paths : Option Paths)
    (c : Cache)
    (hin : (match paths with
      | none => true
      | some ps => ps.paths.all (fun kv => slotInline pathItemInline kv.2)) = true) :
    dereference_paths D doc paths c = (.ok paths, c) := by
  cases paths with
  | none => rfl
  | some ps =>
    simp only [dereference_paths]
    rw [dbind_ok_step (derefPairs_id (derefPathItemSlot_id D doc) ps.paths c hin)]
    rfl

/-! ## Claim C8 -/

/-- Claim C8: on a document with zero `$ref` occurrences (every slot inline,
every schema reference-free), `dereference` succeeds and is a structural
no-op: the result equals the input except for the `is_dereferenced` flag,
so every slot is still in the `Inline` variant. -/
theorem dereference_no_op_on_ref_free (D : Decoders) (fuel : Nat)
    (self : OpenApiDereferencer)
    (h1 : openApiInline self.openapi = true)
    (h2 : schemaFuelOk self.openapi fuel) :
    dereference D fuel self = .ok { self with is_dereferenced := true } := by
  simp only [openApiInline, Bool.and_eq_true] at h1
  obtain ⟨hcomps, hpaths⟩ := h1
  have hf : ∀ cs, self.openapi.components = some cs →
      ∀ kv ∈ cs.schemas, schemaSize kv.2.json_schema ≤ fuel := by
    intro cs hcs kv hkv
    unfold schemaFuelOk at h2
    rw [hcs] at h2
    exact h2 kv hkv
  unfold dereference
  rw [dereference_components_id D self.json fuel self.openapi.components
    self.serde_values hcomps hf]
  simp only []
  rw [dereference_paths_id D self.json self.openapi.paths
    self.serde_values hpaths]

/-- Witness for C8 on the concrete reference-free document. -/
theorem dereference_no_op_on_ref_free_witness :
    dereference exDecoders 0 exDocServers =
      .ok { exDocServers with is_dereferenced := true } :=
  dereference_no_op_on_ref_free exDecoders 0 exDocServers rfl trivial

/-! ## Claim C6 machinery -/

theorem dereference_schema_list_nil (D : Decoders) (doc : Json) (fuel : Nat)
    (c : Cache) : dereference_schema_list D doc fuel .nil c = (.ok .nil, c) := by
  cases fuel <;> rfl

theorem derefOptSchemaList_none_eq (D : Decoders) (doc : Json) (fuel : Nat)
    (c : Cache) : derefOptSchemaList D doc fuel none c = (.ok none, c) := by
  cases fuel <;> rfl

theorem derefOptSchema_none_eq (D : Decoders) (doc : Json) (fuel : Nat)
    (c : Cache) : derefOptSchema D doc fuel none c = (.ok none, c) := by
  cases fuel <;> rfl

theorem derefSchemars_ref (D : Decoders) (doc : Json) (fuel : Nat) (r : String)
    (osub : Option Subschemas) (oth : Json) (c : Cache)
    (t : Option String × Option Subschemas × Json) (c1 : Cache) (n : Nat)
    (h : dereference_type D.decSchemaObj doc c r = (.ok t, c1, n))
    (ht : t.2.1 = none) :
    dereference_schemars_schema D doc (fuel + 1) (.object (some r) osub oth) c
      = (.ok (.object t.1 none t.2.2), c1) := by
  simp only [dereference_schemars_schema]
  rw [dbind_ok_step (schemaSubst_some D doc r osub oth c t c1 n h)]
  rw [ht]
  rfl

theorem derefSchemaList_cons_ok (D : Decoders) (doc : Json) (fuel : Nat)
    (hd : SchemarsSchema) (tl : SchemaList) (c : Cache) (s1 : SchemarsSchema)
    (c1 : Cache) (l2 : SchemaList) (c2 : Cache)
    (hh : dereference_schemars_schema D doc fuel hd c = (.ok s1, c1))
    (htl : dereference_schema_list D doc fuel tl c1 = (.ok l2, c2)) :
    dereference_schema_list D doc (fuel + 1) (.cons hd tl) c
      = (.ok (.cons s1 l2), c2) := by
  simp only [dereference_schema_list]
  rw [dbind_ok_step hh, dbind_ok_step htl]
  rfl

theorem derefOptSchemaList_some_ok (D : Decoders) (doc : Json) (fuel : Nat)
    (l : SchemaList) (c : Cache) (l2 : SchemaList) (c2 : Cache)
    (hl : dereference_schema_list D doc fuel l c = (.ok l2, c2)) :
    derefOptSchemaList D doc (fuel + 1) (some l) c = (.ok (some l2), c2) := by
  simp only [derefOptSchemaList]
  rw [dbind_ok_step hl]
  rfl

theorem derefSchemars_nonref_compute (D : Decoders) (doc : Json) (fuel : Nat)
    (ao ay oo : Option SchemaList) (i t e : Option SchemarsSchema) (other : Json)
    (c ca cb cc cd ce cf : Cache)
    (ao2 ay2 oo2 : Option SchemaList) (i2 t2 e2 : Option SchemarsSchema)
    (hA : derefOptSchemaList D doc fuel ao c = (.ok ao2, ca))
    (hB : derefOptSchemaList D doc fuel ay ca = (.ok ay2, cb))
    (hC : derefOptSchemaList D doc fuel oo cb = (.ok oo2, cc))
    (hI : derefOptSchema D doc fuel i cc = (.ok i2, cd))
    (hE : derefOptSchema D doc fuel e cd = (.ok e2, ce))
    (hT : derefOptSchema D doc fuel t ce = (.ok t2, cf)) :
    dereference_schemars_schema D doc (fuel + 1)
      (.object none (some (.mk ao ay oo i t e)) other) c
      = (.ok (.object none (some (.mk ao2 ay2 oo2 i2 t2 e2)) other), cf) := by
  simp only [dereference_schemars_schema]
  rw [dbind_ok_step (schemaSubst_none D doc (some (.mk ao ay oo i t e)) other c)]
  simp only []
  rw [dbind_ok_step hA, dbind_ok_step hB, dbind_ok_step hC,
    dbind_ok_step hI, dbind_ok_step hE, dbind_ok_step hT]
  rfl

theorem dereference_schema_list_length (D : Decoders) (doc : Json) :
    ∀ (fuel : Nat) (l : SchemaList) (c : Cache) (l2 : SchemaList) (c2 : Cache),
      dereference_schema_list D doc fuel l c = (.ok l2, c2) →
      l2.length = l.length := by
  intro fuel
  induction fuel with
  | zero =>
    intro l c l2 c2 h
    cases l with
    | nil =>
      rw [dereference_schema_list_nil] at h
      simp only [Prod.mk.injEq, RResult.ok.injEq] at h
      obtain ⟨he, _⟩ := h
      subst he; rfl
    | cons hd tl =>
      simp only [dereference_schema_list] at h
      simp at h
  | succ fuel ih =>
    intro l c l2 c2 h
    cases l with
    | nil =>
      rw [dereference_schema_list_nil] at h
      simp only [Prod.mk.injEq, RResult.ok.injEq] at h
      obtain ⟨he, _⟩ := h
      subst he; rfl
    | cons hd tl =>
      simp only [dereference_schema_list] at h
      obtain ⟨s1, c1, hs, h⟩ := dbind_ok_inv h
      obtain ⟨tl2, cm, htl, h⟩ := dbind_ok_inv h
      obtain ⟨he, _⟩ := dpure_ok_inv h
      subst he
      simp only [SchemaList.length]
      rw [ih tl c1 tl2 cm htl]

theorem derefOptSchemaList_length (D : Decoders) (doc : Json) (fuel : Nat)
    (x x2 : Option SchemaList) (c c2 : Cache)
    (h : derefOptSchemaList D doc fuel x c = (.ok x2, c2)) :
    x2.map SchemaList.length = x.map SchemaList.length := by
  cases x with
  | none =>
    rw [derefOptSchemaList_none_eq] at h
    simp only [Prod.mk.injEq, RResult.ok.injEq] at h
    obtain ⟨he, _⟩ := h
    subst he; rfl
  | some l =>
    cases fuel with
    | zero =>
      simp only [derefOptSchemaList] at h
      simp at h
    | succ fuel =>
      simp only [derefOptSchemaList] at h
      obtain ⟨l2, cm, hl, hp⟩ := dbind_ok_inv h
      obtain ⟨he, _⟩ := dpure_ok_inv hp
      subst he
      simp only [Option.map]
      rw [dereference_schema_list_length D doc fuel l c l2 cm hl]

theorem derefOptSchema_isSome (D : Decoders) (doc : Json) (fuel : Nat)
    (x x2 : Option SchemarsSchema) (c c2 : Cache)
    (h : derefOptSchema D doc fuel x c = (.ok x2, c2)) :
    x2.isSome = x.isSome := by
  cases x with
  | none =>
    rw [derefOptSchema_none_eq] at h
    simp only [Prod.mk.injEq, RResult.ok.injEq] at h
    obtain ⟨he, _⟩ := h
    subst he; rfl
  | some s =>
    cases fuel with
    | zero =>
      simp only [derefOptSchema] at h
      simp at h
    | succ fuel =>
      simp only [derefOptSchema] at h
      obtain ⟨s2, cm, hs, hp⟩ := dbind_ok_inv h
      obtain ⟨he, _⟩ := dpure_ok_inv hp
      subst he; rfl

/-! ## Claim C6 -/

/-- Claim C6: dereferencing an object schema whose `allOf` holds exactly two
reference members resolves each member independently (each against its own
pointer, threading the cache left to right) and returns a schema whose
`allOf` still holds exactly two children in the original order, with no
merging; and in general, for any non-reference object schema, a successful
pass preserves the length of every `allOf`/`anyOf`/`oneOf` member list and
the presence of the `if`/`then`/`else` branches. -/
theorem schema_composition_no_merging (D : Decoders) (doc : Json) :
    (∀ (fuel : Nat) (r1 r2 : String) (o1 o2 other : Json) (c c1 c2 : Cache)
      (n1 n2 : Nat) (t1 t2 : Option String × Option Subschemas × Json),
      dereference_type D.decSchemaObj doc c r1 = (.ok t1, c1, n1) →
      dereference_type D.decSchemaObj doc c1 r2 = (.ok t2, c2, n2) →
      t1.2.1 = none → t2.2.1 = none →
      dereference_schemars_schema D doc (fuel + 5)
        (.object none
          (some (.mk
            (some (.cons (.object (some r1) none o1)
              (.cons (.object (some r2) none o2) .nil)))
            none none none none none)) other) c
        = (.ok (.object none
            (some (.mk
              (some (.cons (.object t1.1 none t1.2.2)
                (.cons (.object t2.1 none t2.2.2) .nil)))
              none none none none none)) other), c2)) ∧
    (∀ (fuel : Nat) (sub : Subschemas) (other : Json) (c c' : Cache)
      (result : SchemarsSchema),
      dereference_schemars_schema D doc (fuel + 1)
        (.object none (some sub) other) c = (.ok result, c') →
      ∃ sub', result = .object none (some sub') other ∧
        subschemasShape sub' = subschemasShape sub) := by
  constructor
  · intro fuel r1 r2 o1 o2 other c c1 c2 n1 n2 t1 t2 h1 h2 ht1 ht2
    have hm1 := derefSchemars_ref D doc (fuel + 1) r1 none o1 c t1 c1 n1 h1 ht1
    have hm2 := derefSchemars_ref D doc fuel r2 none o2 c1 t2 c2 n2 h2 ht2
    have hnil : dereference_schema_list D doc (fuel + 1) .nil c2 =
      (.ok .nil, c2) := dereference_schema_list_nil D doc (fuel + 1) c2
    have hl2 := derefSchemaList_cons_ok D doc (fuel + 1)
      (.object (some r2) none o2) .nil c1 (.object t2.1 none t2.2.2) c2 .nil c2
      hm2 hnil
    have hl1 := derefSchemaList_cons_ok D doc (fuel + 2)
      (.object (some r1) none o1) (.cons (.object (some r2) none o2) .nil) c
      (.object t1.1 none t1.2.2) c1
      (.cons (.object t2.1 none t2.2.2) .nil) c2 hm1 hl2
    have hopt := derefOptSchemaList_some_ok D doc (fuel + 3)
      (.cons (.object (some r1) none o1) (.cons (.object (some r2) none o2) .nil))
      c (.cons (.object t1.1 none t1.2.2) (.cons (.object t2.1 none t2.2.2) .nil))
      c2 hl1
    exact derefSchemars_nonref_compute D doc (fuel + 4)
      (some (.cons (.object (some r1) none o1)
        (.cons (.object (some r2) none o2) .nil)))
      none none none none none other c c2 c2 c2 c2 c2 c2
      (some (.cons (.object t1.1 none t1.2.2)
        (.cons (.object t2.1 none t2.2.2) .nil)))
      none none none none none
      hopt
      (derefOptSchemaList_none_eq D doc (fuel + 4) c2)
      (derefOptSchemaList_none_eq D doc (fuel + 4) c2)
      (derefOptSchema_none_eq D doc (fuel + 4) c2)
      (derefOptSchema_none_eq D doc (fuel + 4) c2)
      (derefOptSchema_none_eq D doc (fuel + 4) c2)
  · intro fuel sub other c c' result h
    cases sub with
    | mk ao ay oo if_s then_s else_s =>
      simp only [dereference_schemars_schema] at h
      rw [dbind_ok_step (schemaSubst_none D doc
        (some (.mk ao ay oo if_s then_s else_s)) other c)] at h
      simp only [] at h
      obtain ⟨ao2, ca, hA, h⟩ := dbind_ok_inv h
      obtain ⟨ay2, cb, hB, h⟩ := dbind_ok_inv h
      obtain ⟨oo2, cc, hC, h⟩ := dbind_ok_inv h
      obtain ⟨i2, cd, hI, h⟩ := dbind_ok_inv h
      obtain ⟨e2, ce, hE, h⟩ := dbind_ok_inv h
      obtain ⟨t2, cf, hT, h⟩ := dbind_ok_inv h
      obtain ⟨he, _⟩ := dpure_ok_inv h
      subst he
      refine ⟨.mk ao2 ay2 oo2 i2 t2 e2, rfl, ?_⟩
      simp only [subschemasShape]
      rw [derefOptSchemaList_length D doc fuel ao ao2 c ca hA,
        derefOptSchemaList_length D doc fuel ay ay2 ca cb hB,
        derefOptSchemaList_length D doc fuel oo oo2 cb cc hC,
        derefOptSchema_isSome D doc fuel if_s i2 cc cd hI,
        derefOptSchema_isSome D doc fuel then_s t2 ce cf hT,
        derefOptSchema_isSome D doc fuel else_s e2 cd ce hE]

/-- Witness for C6: the two-reference `allOf` schema against the concrete
raw document, resolving to its two numeric targets in order. -/
theorem schema_composition_no_merging_witness :
    dereference_schemars_schema exDecoders exRawDoc 5
      (.object none
        (some (.mk
          (some (.cons (.object (some "#/defs/A") none .null)
            (.cons (.object (some "#/defs/B") none .null) .nil)))
          none none none none none)) .null) []
      = (.ok (.object none
          (some (.mk
            (some (.cons (.object none none (.num 1))
              (.cons (.object none none (.num 2)) .nil)))
            none none none none none)) .null),
        [("#/defs/B", .num 2), ("#/defs/A", .num 1)]) :=
  (schema_composition_no_merging exDecoders exRawDoc).1 0 "#/defs/A" "#/defs/B"
    .null .null .null [] [("#/defs/A", .num 1)]
    [("#/defs/B", .num 2), ("#/defs/A", .num 1)] 1 1
    (none, none, .num 1) (none, none, .num 2) rfl rfl rfl rfl

end OpenApiDeref
